import Mathlib

/-!
# iaq-measurementd: classifier, sensor drivers and CRC-8

A shallow embedding of the parts of the indoor air quality measurement daemon
that carry protocol and classification logic:

* `LEDsystem` (src/output.c): the hysteresis classifier driving the three LEDs,
* `crc8`, `CO2`, `si7021` (src/measurement.c): the checksum and the two sensor
  drivers, run against an explicit bus transport.

C `int` values are mathematical integers, `uint8_t` / `uint16_t` / `unsigned`
values are naturals reduced modulo `2^8` / `2^16` / `2^32` where the source
can overflow.  The bus is a function giving the reply of the n-th system call.
-/

set_option linter.unusedVariables false

namespace IAQ

/-! ## Constants of src/iaq-measurementd.h -/

/-- Maximum number of tries for measurements. -/
def MAX_ERROR_CNT : Nat := 50

/-- LED state before the first classification. -/
def OFF : Int := 0
/-- LED state: green LED lit. -/
def GREEN : Int := 1
/-- LED state: yellow LED lit. -/
def YELLOW : Int := 2
/-- LED state: red LED lit. -/
def RED : Int := 3

/-- Default of co2_threshold_yellow in ppm. -/
def DEFAULT_CO2_THRESHOLD_YELLOW : Int := 1000
/-- Default of co2_threshold_red in ppm. -/
def DEFAULT_CO2_THRESHOLD_RED : Int := 1900
/-- Default of co2_hysteresis in ppm. -/
def DEFAULT_CO2_HYSTERESIS : Int := 200

/-- Value held by a C `float` variable of the daemon: either a rational number
held exactly (`val`), or the result of the double precision temperature
formula `((175.72 * raw) / 65536) - 46.85` for a raw code (`tempOfRaw`), whose
rounding is not evaluated here. -/
inductive CFloat where
  | val (q : ℚ)
  | tempOfRaw (raw : Nat)
  deriving DecidableEq

/-- The global configuration variables read by the classifier and the output
module (pins, CO2 thresholds, temperature and humidity thresholds). -/
structure Config where
  green_pin : Int
  yellow_pin : Int
  red_pin : Int
  co2_threshold_yellow : Int
  co2_threshold_red : Int
  co2_hysteresis : Int
  temp_threshold_yellow : CFloat
  temp_threshold_red : CFloat
  rh_threshold_yellow : CFloat
  rh_threshold_red : CFloat

/-- The configuration the daemon starts with (the DEFAULT_ macros). -/
def defaultConfig : Config where
  green_pin := 0
  yellow_pin := 1
  red_pin := 2
  co2_threshold_yellow := DEFAULT_CO2_THRESHOLD_YELLOW
  co2_threshold_red := DEFAULT_CO2_THRESHOLD_RED
  co2_hysteresis := DEFAULT_CO2_HYSTERESIS
  temp_threshold_yellow := CFloat.val 28
  temp_threshold_red := CFloat.val 32
  rh_threshold_yellow := CFloat.val 80
  rh_threshold_red := CFloat.val 100

/-! ## The classifier, src/output.c -/

/-- One call `digitalWrite(pin, level)`; `level = true` is HIGH. -/
structure PinWrite where
  pin : Int
  level : Bool
  deriving DecidableEq

/-- Level HIGH of wiringPi. -/
def HIGH : Bool := true
/-- Level LOW of wiringPi. -/
def LOW : Bool := false

/-- Embedding of `int LEDsystem(int co2, float temp, float rh, int led_state)`:
the returned LED state together with the `digitalWrite` calls made, in order. -/
def LEDsystem (cfg : Config) (co2 : Int) (temp rh : CFloat) (led_state : Int) :
    Int × List PinWrite :=
  if (led_state = RED ∧ co2 > cfg.co2_threshold_red - cfg.co2_hysteresis) ∨
      (led_state = YELLOW ∧ co2 > cfg.co2_threshold_red) ∨
      (led_state = OFF ∧ co2 > cfg.co2_threshold_red) then
    (RED,
      if led_state ≠ RED then
        [⟨cfg.green_pin, LOW⟩, ⟨cfg.yellow_pin, LOW⟩, ⟨cfg.red_pin, HIGH⟩]
      else [])
  else if (led_state = YELLOW ∧ co2 < cfg.co2_threshold_yellow - cfg.co2_hysteresis) ∨
      (led_state = GREEN ∧ co2 < cfg.co2_threshold_yellow) ∨
      (led_state = OFF ∧ co2 < cfg.co2_threshold_yellow) then
    (GREEN,
      if led_state ≠ GREEN then
        [⟨cfg.green_pin, HIGH⟩, ⟨cfg.yellow_pin, LOW⟩, ⟨cfg.red_pin, LOW⟩]
      else [])
  else
    (YELLOW,
      if led_state ≠ YELLOW then
        [⟨cfg.green_pin, LOW⟩, ⟨cfg.yellow_pin, HIGH⟩, ⟨cfg.red_pin, LOW⟩]
      else [])

/-- The condition under which `LEDsystem` takes its first branch (returns
RED), with the two disjuncts on `co2 > co2_threshold_red` merged. -/
@[reducible] def redRule (cfg : Config) (co2 led_state : Int) : Prop :=
  (led_state = RED ∧ co2 > cfg.co2_threshold_red - cfg.co2_hysteresis) ∨
    ((led_state = YELLOW ∨ led_state = OFF) ∧ co2 > cfg.co2_threshold_red)

/-- The condition of the second branch of `LEDsystem` (returns GREEN when the
first is not taken), with the two disjuncts on `co2 < co2_threshold_yellow`
merged. -/
@[reducible] def greenRule (cfg : Config) (co2 led_state : Int) : Prop :=
  (led_state = YELLOW ∧ co2 < cfg.co2_threshold_yellow - cfg.co2_hysteresis) ∨
    ((led_state = GREEN ∨ led_state = OFF) ∧ co2 < cfg.co2_threshold_yellow)

/-! ## CRC-8, src/measurement.c -/

/-- One pass of the inner loop of `crc8`: the conditional XOR with the feedback
constant `0x1310 << 3` and the shift of the 32-bit `unsigned` accumulator. -/
def crc8_bit (crc : Nat) : Nat :=
  let crc := if crc &&& 0x8000 ≠ 0 then crc ^^^ (0x1310 <<< 3) else crc
  (crc <<< 1) % 2 ^ 32

/-- One pass of the outer loop of `crc8`: `crc ^= (*data << 8)` followed by
the eight passes of the inner loop. -/
def crc8_byte (crc : Nat) (b : Nat) : Nat :=
  crc8_bit^[8] (crc ^^^ (b <<< 8))

/-- The accumulator `crc` of `crc8` after all bytes of `data` are consumed. -/
def crc8_acc (data : List Nat) : Nat :=
  data.foldl crc8_byte 0

/-- Embedding of `uint8_t crc8(const void *vptr, int len)`; `data` holds the
`len` bytes at `vptr`.  The result is `(uint8_t)(crc >> 8)`. -/
def crc8 (data : List Nat) : Nat :=
  (crc8_acc data >>> 8) % 256

/-- One bit step of the textbook CRC-8 on an 8-bit register: shift left,
and XOR the generator `0x31` (x^8 + x^5 + x^4 + 1 without its top term) when
the bit shifted out is set.  Written from the definition of the CRC, to be
compared with `crc8`. -/
def crc8_spec_bit (r : Nat) : Nat :=
  if r &&& 0x80 ≠ 0 then ((r <<< 1) ^^^ 0x31) % 256 else (r <<< 1) % 256

/-- The textbook CRC-8 register after one more message byte, MSB first. -/
def crc8_spec_byte (r : Nat) (b : Nat) : Nat :=
  crc8_spec_bit^[8] (r ^^^ b)

/-- The textbook CRC-8 (polynomial 0x31, initial value 0, no reflection, no
final XOR) of a byte sequence. -/
def crc8_spec (data : List Nat) : Nat :=
  data.foldl crc8_spec_byte 0

/-! ## Bus transport -/

/-- A system call made on the i2c device file. -/
inductive BusOp where
  | ioctl (address : Nat)
  | write (bytes : List Nat)
  | read (n : Nat)
  deriving DecidableEq

/-- What a system call returns: its return value and, for `read`, the bytes
the device delivered. -/
structure Reply where
  status : Int
  data : List Nat

/-- The bus as seen by a driver call: the reply to its n-th system call. -/
abbrev Bus := Nat → Reply

/-- The contents of an `n` byte `uint8_t` buffer after a read delivered
`data` into it. -/
def fillBuffer (n : Nat) (data : List Nat) : List Nat :=
  (List.range n).map fun i => data.getD i 0 % 256

/-- The byte `*(buffer + i)`. -/
def byteAt (buffer : List Nat) (i : Nat) : Nat :=
  buffer.getD i 0

/-- How a piece of a driver body ends: by a `return code`, or by reaching
its end. -/
inductive Ctl (σ : Type) where
  | returned (code : Int) (st : σ)
  | done (st : σ)

/-- Iterations granted to every retry loop.  Each loop is guarded by a
`uint8_t` counter, so 256 passes are never needed. -/
def loopFuel : Nat := 256

/-! ## The K-30 driver `CO2`, src/measurement.c -/

/-- The local variables of `CO2`, the output variable `*co2` and the system
calls made so far. -/
structure CO2State where
  write_error_cnt : Nat
  read_error_cnt : Nat
  checksum_error_cnt : Nat
  success : Nat
  buffer_read : List Nat
  co2 : Int
  trace : List BusOp

/-- The request frame `buffer_write` of `CO2`. -/
def CO2_request : List Nat := [0x22, 0x00, 0x08, 0x2A]

/-- The innermost loop of `CO2`: write the request until it is written in
full or `write_error_cnt` reaches `MAX_ERROR_CNT`.  Returns `status_write`.
A failed write also post-increments `checksum_error_cnt` (in the test that
selects the longer delay). -/
def CO2_write_loop (bus : Bus) : Nat → CO2State → Option (Int × CO2State)
  | 0, _ => none
  | fuel + 1, st =>
    let status_write := (bus st.trace.length).status
    let st := { st with trace := st.trace ++ [BusOp.write CO2_request] }
    if status_write ≠ 4 then
      let st := { st with
        write_error_cnt := (st.write_error_cnt + 1) % 256
        checksum_error_cnt := (st.checksum_error_cnt + 1) % 256 }
      if st.write_error_cnt < MAX_ERROR_CNT then CO2_write_loop bus fuel st
      else some (status_write, st)
    else some (status_write, st)

/-- The middle loop of `CO2`: write loop, then a 4 byte read, until the read
is complete or `read_error_cnt` reaches `MAX_ERROR_CNT`.  Ends by `return 2`
when the write loop gave up, otherwise yields `status_read`. -/
def CO2_read_loop (bus : Bus) : Nat → CO2State → Option (Ctl (Int × CO2State))
  | 0, _ => none
  | fuel + 1, st =>
    match CO2_write_loop bus loopFuel st with
    | none => none
    | some (status_write, st) =>
      if status_write ≠ 4 then some (Ctl.returned 2 (status_write, st))
      else
        let reply := bus st.trace.length
        let status_read := reply.status
        let st := { st with trace := st.trace ++ [BusOp.read 4] }
        if status_read ≠ 4 then
          let st := { st with read_error_cnt := (st.read_error_cnt + 1) % 256 }
          if st.read_error_cnt < MAX_ERROR_CNT then CO2_read_loop bus fuel st
          else some (Ctl.done (status_read, st))
        else
          some (Ctl.done (status_read, { st with buffer_read := fillBuffer 4 reply.data }))

/-- The checksum `CO2` computes over the first three bytes of the response,
accumulated in a `uint8_t`. -/
def CO2_checksum (buffer_read : List Nat) : Nat :=
  (List.range 3).foldl (fun checksum i => (checksum + byteAt buffer_read i) % 256) 0

/-- The acceptance test of `CO2`:
`checksum == *(buffer_read+3) && *buffer_read == 0x21`. -/
def CO2_accepts (buffer_read : List Nat) : Bool :=
  CO2_checksum buffer_read == byteAt buffer_read 3 && byteAt buffer_read 0 == 0x21

/-- The body of the outer `do ... while` of `CO2`: wake-up pulse, address
selection, the exchange and the acceptance test. -/
def CO2_body (bus : Bus) (st : CO2State) : Option (Ctl CO2State) :=
  let r0 := bus st.trace.length
  let st := { st with trace := st.trace ++ [BusOp.ioctl 0x00] }
  if r0.status < 0 then some (Ctl.returned 1 st)
  else
    let st := { st with trace := st.trace ++ [BusOp.write [0x22]] }
    let r1 := bus st.trace.length
    let st := { st with trace := st.trace ++ [BusOp.ioctl 0x68] }
    if r1.status < 0 then some (Ctl.returned 1 st)
    else
      match CO2_read_loop bus loopFuel st with
      | none => none
      | some (Ctl.returned code (_, st)) => some (Ctl.returned code st)
      | some (Ctl.done (status_read, st)) =>
        if status_read ≠ 4 then some (Ctl.returned 2 st)
        else if CO2_accepts st.buffer_read then
          some (Ctl.done { st with
            co2 := ((byteAt st.buffer_read 1 <<< 8) + byteAt st.buffer_read 2 : Nat)
            success := 1 })
        else
          some (Ctl.done { st with
            checksum_error_cnt := (st.checksum_error_cnt + 1) % 256 })

/-- The outer loop of `CO2` with the two statements after it:
`do body while(!success && checksum_error_cnt < MAX_ERROR_CNT);`
`if(!success) return 2; return 0;`. -/
def CO2_loop (bus : Bus) : Nat → CO2State → Option (Int × CO2State)
  | 0, _ => none
  | fuel + 1, st =>
    match CO2_body bus st with
    | none => none
    | some (Ctl.returned code st) => some (code, st)
    | some (Ctl.done st) =>
      if st.success = 0 ∧ st.checksum_error_cnt < MAX_ERROR_CNT then CO2_loop bus fuel st
      else if st.success = 0 then some (2, st)
      else some (0, st)

/-- The state in which `CO2` enters its outer loop; `co2` is the value the
output variable holds before the call. -/
def CO2_init (co2 : Int) : CO2State where
  write_error_cnt := 0
  read_error_cnt := 0
  checksum_error_cnt := 0
  success := 0
  buffer_read := []
  co2 := co2
  trace := []

/-- Embedding of `int CO2(int *co2)`: the return value and the final state
(with the output variable and the system calls made), `none` if a loop ran
out of iterations. -/
def CO2 (bus : Bus) (co2 : Int) : Option (Int × CO2State) :=
  CO2_loop bus loopFuel (CO2_init co2)

/-! ## The Si7021 driver `si7021`, src/measurement.c -/

/-- The local variables of `si7021`, the output variables `*temp` and `*rh`
and the system calls made so far. -/
structure SiState where
  write_error_cnt : Nat
  read_error_cnt : Nat
  checksum_error_cnt : Nat
  success : Nat
  buffer_read : List Nat
  temp : CFloat
  rh : CFloat
  trace : List BusOp

/-- A command write loop of `si7021` (used with `0xE5` and with `0xE0`):
write the one command byte until it is written or `write_error_cnt` reaches
`MAX_ERROR_CNT`.  Returns `status_write`. -/
def si7021_write_loop (bus : Bus) (command : Nat) : Nat → SiState → Option (Int × SiState)
  | 0, _ => none
  | fuel + 1, st =>
    let status_write := (bus st.trace.length).status
    let st := { st with trace := st.trace ++ [BusOp.write [command]] }
    if status_write ≠ 1 then
      let st := { st with write_error_cnt := (st.write_error_cnt + 1) % 256 }
      if st.write_error_cnt < MAX_ERROR_CNT then si7021_write_loop bus command fuel st
      else some (status_write, st)
    else some (status_write, st)

/-- A read loop of `si7021` (used with 3 and with 2 bytes): read until `n`
bytes arrive or `read_error_cnt` reaches `MAX_ERROR_CNT`.  Returns
`status_read`; a complete read overwrites the first `n` bytes of the buffer. -/
def si7021_read_loop (bus : Bus) (n : Nat) : Nat → SiState → Option (Int × SiState)
  | 0, _ => none
  | fuel + 1, st =>
    let reply := bus st.trace.length
    let status_read := reply.status
    let st := { st with trace := st.trace ++ [BusOp.read n] }
    if status_read ≠ n then
      let st := { st with read_error_cnt := (st.read_error_cnt + 1) % 256 }
      if st.read_error_cnt < MAX_ERROR_CNT then si7021_read_loop bus n fuel st
      else some (status_read, st)
    else
      some (status_read,
        { st with buffer_read := fillBuffer n reply.data ++ st.buffer_read.drop n })

/-- The `uint16_t` raw code `(*(buffer_read) << 8) + *(buffer_read+1)`. -/
def rawCode (buffer_read : List Nat) : Nat :=
  ((byteAt buffer_read 0 <<< 8) + byteAt buffer_read 1) % 65536

/-- The value of `rh_local = ((125 * rh_bytes) / 65536) - 6`: the right hand
side is evaluated in `int` arithmetic (integer division) and then converted
to `float`, which is exact for these small integers. -/
def rh_local (rh_bytes : Nat) : Int :=
  (125 * (rh_bytes : Int)) / 65536 - 6

/-- The value stored in `*rh` for a raw code: `rh_local` limited to 0..100
by the two comparisons of the source. -/
def rh_stored (rh_bytes : Nat) : ℚ :=
  if rh_local rh_bytes < 0 then 0
  else if rh_local rh_bytes > 100 then 100
  else (rh_local rh_bytes : ℚ)

/-- The body of the humidity `do ... while` of `si7021`: command `0xE5`,
3 byte read, CRC test and conversion. -/
def si7021_rh_body (bus : Bus) (st : SiState) : Option (Ctl SiState) :=
  match si7021_write_loop bus 0xE5 loopFuel st with
  | none => none
  | some (status_write, st) =>
    if status_write ≠ 1 then some (Ctl.returned 2 st)
    else
      match si7021_read_loop bus 3 loopFuel st with
      | none => none
      | some (status_read, st) =>
        if status_read ≠ 3 then some (Ctl.returned 2 st)
        else
          let crc := crc8 (st.buffer_read.take 2)
          if crc = byteAt st.buffer_read 2 then
            some (Ctl.done { st with
              rh := CFloat.val (rh_stored (rawCode st.buffer_read))
              success := 1 })
          else
            some (Ctl.done { st with
              checksum_error_cnt := (st.checksum_error_cnt + 1) % 256 })

/-- The humidity loop of `si7021`:
`do body while(!success && checksum_error_cnt < MAX_ERROR_CNT);`.  Ends by a
`return` of the body or yields the state at the loop exit. -/
def si7021_rh_loop (bus : Bus) : Nat → SiState → Option (Ctl SiState)
  | 0, _ => none
  | fuel + 1, st =>
    match si7021_rh_body bus st with
    | none => none
    | some (Ctl.returned code st) => some (Ctl.returned code st)
    | some (Ctl.done st) =>
      if st.success = 0 ∧ st.checksum_error_cnt < MAX_ERROR_CNT then si7021_rh_loop bus fuel st
      else some (Ctl.done st)

/-- The temperature part of `si7021` (the `else` branch after the humidity
loop): command `0xE0`, a 2 byte read and the conversion. -/
def si7021_temp (bus : Bus) (st : SiState) : Option (Int × SiState) :=
  let st := { st with
    buffer_read := [0, 0, 0]
    write_error_cnt := 0
    read_error_cnt := 0
    checksum_error_cnt := 0 }
  match si7021_write_loop bus 0xE0 loopFuel st with
  | none => none
  | some (status_write, st) =>
    if status_write ≠ 1 then some (2, st)
    else
      match si7021_read_loop bus 2 loopFuel st with
      | none => none
      | some (status_read, st) =>
        if status_read ≠ 2 then some (2, st)
        else some (0, { st with temp := CFloat.tempOfRaw (rawCode st.buffer_read) })

/-- The state in which `si7021` starts; `temp` and `rh` are the values the
output variables hold before the call. -/
def si7021_init (temp rh : CFloat) : SiState where
  write_error_cnt := 0
  read_error_cnt := 0
  checksum_error_cnt := 0
  success := 0
  buffer_read := []
  temp := temp
  rh := rh
  trace := []

/-- Embedding of `int si7021(float *temp, float *rh)`: the return value and
the final state (with the output variables and the system calls made), `none`
if a loop ran out of iterations. -/
def si7021 (bus : Bus) (temp rh : CFloat) : Option (Int × SiState) :=
  let st := si7021_init temp rh
  let r0 := bus st.trace.length
  let st := { st with trace := st.trace ++ [BusOp.ioctl 0x40] }
  if r0.status < 0 then some (1, st)
  else
    match si7021_rh_loop bus loopFuel st with
    | none => none
    | some (Ctl.returned code st) => some (code, st)
    | some (Ctl.done st) =>
      if st.success = 0 then some (2, st)
      else si7021_temp bus st

/-- A bus given by the list of its first replies; every later call fails
with status `-1`. -/
def scriptBus (replies : List Reply) : Bus :=
  fun n => replies.getD n ⟨-1, []⟩

/-! ## One exchange of CO2 and bit flips of its response -/

/-- The frame with bit `k` flipped, bits numbered through the bytes in order
(bit `k % 8` of byte `k / 8`). -/
def flipBit : List Nat → Nat → List Nat
  | [], _ => []
  | b :: bs, k => if k < 8 then (b ^^^ (1 <<< k)) :: bs else b :: flipBit bs (k - 8)

/-! ## The humidity conversion as the spec states it, and one humidity exchange -/

/-- The humidity formula as the spec states it, `125 * raw / 65536 - 6`,
evaluated in exact rational arithmetic. -/
def rh_formula (raw : Nat) : ℚ :=
  125 * (raw : ℚ) / 65536 - 6

/-- The humidity percent as the spec states it:
`clamp(125 * raw / 65536 - 6, 0, 100)` in exact rational arithmetic. -/
def rh_spec (raw : Nat) : ℚ :=
  max 0 (min 100 (rh_formula raw))

/-- The two system calls of one undisturbed humidity exchange of `si7021`. -/
def si7021_rh_ops : List BusOp :=
  [BusOp.write [0xE5], BusOp.read 3]

/-- The replies to the calls `n` and `n + 1` are those of an undisturbed
humidity exchange of `si7021`: the command byte is written and the read
delivers the three bytes `data`. -/
@[reducible] def rhExchangeOk (bus : Bus) (n : Nat) (data : List Nat) : Prop :=
  (bus n).status = 1 ∧ (bus (n + 1)).status = 3 ∧ (bus (n + 1)).data = data

/-! ## The indicator over several acquisition cycles -/

/-- The value of `led_state` after the acquisition loop of `main` has run the
given cycles, each with its configuration and readings: every cycle executes
`led_state = LEDsystem(co2, temp, rh, led_state)`. -/
def led_state_after (led_state : Int) (cycles : List (Config × Int × CFloat × CFloat)) : Int :=
  cycles.foldl (fun s c => (LEDsystem c.1 c.2.1 c.2.2.1 c.2.2.2 s).1) led_state

/-! ## Counting the request writes of CO2 -/

/-- The number of writes of the 4 byte request among the system calls of a
trace (the one byte wake-up pulse is not one of them). -/
def requestWrites (trace : List BusOp) : Nat :=
  trace.count (BusOp.write CO2_request)

/-! ## A run of CO2 with many failures of two classes -/

/-- The replies of a run of `CO2` with 49 failed reads, then 49 rejected
responses (status byte 0x20), then the valid response {0x21, 0x03, 0xE8, 0x0C}:
a first pass whose request is written 50 times, each of the first 49 reads
failing and the 50th delivering a bad frame, 48 more passes with a bad frame,
and a last pass with the valid frame. -/
def separateBudgetsScript : List Reply :=
  [⟨0, []⟩, ⟨-1, []⟩, ⟨0, []⟩] ++
    (List.replicate 49 [(⟨4, []⟩ : Reply), ⟨-1, []⟩]).flatten ++
    [⟨4, []⟩, ⟨4, [0x20, 0x03, 0xE8, 0x0B]⟩] ++
    (List.replicate 48
      [(⟨0, []⟩ : Reply), ⟨-1, []⟩, ⟨0, []⟩, ⟨4, []⟩, ⟨4, [0x20, 0x03, 0xE8, 0x0B]⟩]).flatten ++
    [⟨0, []⟩, ⟨-1, []⟩, ⟨0, []⟩, ⟨4, []⟩, ⟨4, [0x21, 0x03, 0xE8, 0x0C]⟩]

/-! ## The accepted humidity response of a call of si7021 -/

/-- The n-th system call of a trace is a 3 byte humidity read that the bus
answered in full with a frame whose CRC byte matches: the response `si7021`
accepts. -/
def rhAccepted (bus : Bus) (tr : List BusOp) (n : Nat) : Prop :=
  tr[n]? = some (BusOp.read 3) ∧ (bus n).status = 3 ∧
    crc8 ((fillBuffer 3 (bus n).data).take 2) = byteAt (fillBuffer 3 (bus n).data) 2

/-! ## Theorems: the classifier -/

/-- The state returned by `LEDsystem` in terms of the two branch conditions. -/
theorem LEDsystem_fst (cfg : Config) (co2 : Int) (temp rh : CFloat) (led_state : Int) :
    (LEDsystem cfg co2 temp rh led_state).1 =
      if redRule cfg co2 led_state then RED
      else if greenRule cfg co2 led_state then GREEN
      else YELLOW := by
  unfold LEDsystem redRule greenRule
  by_cases h1 : (led_state = RED ∧ co2 > cfg.co2_threshold_red - cfg.co2_hysteresis) ∨
      (led_state = YELLOW ∧ co2 > cfg.co2_threshold_red) ∨
      (led_state = OFF ∧ co2 > cfg.co2_threshold_red)
  · have h1' : (led_state = RED ∧ co2 > cfg.co2_threshold_red - cfg.co2_hysteresis) ∨
        ((led_state = YELLOW ∨ led_state = OFF) ∧ co2 > cfg.co2_threshold_red) := by tauto
    rw [if_pos h1, if_pos h1']
  · have h1' : ¬ ((led_state = RED ∧ co2 > cfg.co2_threshold_red - cfg.co2_hysteresis) ∨
        ((led_state = YELLOW ∨ led_state = OFF) ∧ co2 > cfg.co2_threshold_red)) := by tauto
    rw [if_neg h1, if_neg h1']
    by_cases h2 : (led_state = YELLOW ∧ co2 < cfg.co2_threshold_yellow - cfg.co2_hysteresis) ∨
        (led_state = GREEN ∧ co2 < cfg.co2_threshold_yellow) ∨
        (led_state = OFF ∧ co2 < cfg.co2_threshold_yellow)
    · have h2' : (led_state = YELLOW ∧ co2 < cfg.co2_threshold_yellow - cfg.co2_hysteresis) ∨
          ((led_state = GREEN ∨ led_state = OFF) ∧ co2 < cfg.co2_threshold_yellow) := by tauto
      rw [if_pos h2, if_pos h2']
    · have h2' : ¬ ((led_state = YELLOW ∧ co2 < cfg.co2_threshold_yellow - cfg.co2_hysteresis) ∨
          ((led_state = GREEN ∨ led_state = OFF) ∧ co2 < cfg.co2_threshold_yellow)) := by tauto
      rw [if_neg h2, if_neg h2']

/-- The three LED states are distinct values. -/
theorem led_states_ne : GREEN ≠ RED ∧ YELLOW ≠ RED ∧ YELLOW ≠ GREEN ∧ OFF ≠ RED ∧
    OFF ≠ GREEN ∧ OFF ≠ YELLOW := by
  decide

/-- C1, as stated, fails: from GREEN with the default thresholds (red = 1900)
and co2 = 2000 the rule of the claim says RED, but `LEDsystem` returns YELLOW. -/
theorem C1_counterexample :
    (LEDsystem defaultConfig 2000 (CFloat.val 0) (CFloat.val 0) GREEN).1 = YELLOW ∧
    ¬ ((LEDsystem defaultConfig 2000 (CFloat.val 0) (CFloat.val 0) GREEN).1 = RED ↔
      (GREEN = RED ∧ (2000 : Int) > defaultConfig.co2_threshold_red - defaultConfig.co2_hysteresis) ∨
      (GREEN ≠ RED ∧ (2000 : Int) > defaultConfig.co2_threshold_red)) := by
  decide

/-- C1, amended: for every reading, configuration and previous state,
`LEDsystem` returns RED if and only if (previous is RED and
co2 > red - hysteresis) or (previous is YELLOW or OFF and co2 > red); in
particular it never returns RED from GREEN. -/
theorem C1_red_iff (cfg : Config) (co2 : Int) (temp rh : CFloat) (led_state : Int) :
    ((LEDsystem cfg co2 temp rh led_state).1 = RED ↔
      (led_state = RED ∧ co2 > cfg.co2_threshold_red - cfg.co2_hysteresis) ∨
      ((led_state = YELLOW ∨ led_state = OFF) ∧ co2 > cfg.co2_threshold_red)) ∧
    (LEDsystem cfg co2 temp rh GREEN).1 ≠ RED := by
  obtain ⟨hgr, hyr, -, -, -, -⟩ := led_states_ne
  constructor
  · rw [LEDsystem_fst]
    split_ifs with h1 h2
    · exact ⟨fun _ => h1, fun _ => rfl⟩
    · exact ⟨fun h => absurd h hgr, fun h => absurd h h1⟩
    · exact ⟨fun h => absurd h hyr, fun h => absurd h h1⟩
  · rw [LEDsystem_fst]
    have h1 : ¬ redRule cfg co2 GREEN := by
      unfold redRule
      rintro (⟨h, -⟩ | ⟨h | h, -⟩) <;> revert h <;> decide
    rw [if_neg h1]
    split_ifs
    · exact hgr
    · exact hyr

/-- C2, as stated, fails: from RED with yellow = 1000, red = 1900,
hysteresis = 200 and co2 = 500 the RED rule does not apply and the GREEN rule
of the claim does (previous is not YELLOW and co2 < yellow), but `LEDsystem`
returns YELLOW. -/
theorem C2_counterexample :
    (LEDsystem defaultConfig 500 (CFloat.val 0) (CFloat.val 0) RED).1 = YELLOW ∧
    ¬ ((LEDsystem defaultConfig 500 (CFloat.val 0) (CFloat.val 0) RED).1 = GREEN ↔
      ¬ ((RED = RED ∧ (500 : Int) > defaultConfig.co2_threshold_red - defaultConfig.co2_hysteresis) ∨
        (RED ≠ RED ∧ (500 : Int) > defaultConfig.co2_threshold_red)) ∧
      ((RED = YELLOW ∧
          (500 : Int) < defaultConfig.co2_threshold_yellow - defaultConfig.co2_hysteresis) ∨
        (RED ≠ YELLOW ∧ (500 : Int) < defaultConfig.co2_threshold_yellow))) := by
  decide

/-- C2, amended: `LEDsystem` returns GREEN if and only if its RED rule
((previous is RED and co2 > red - hysteresis) or (previous is YELLOW or OFF
and co2 > red)) does not apply and ((previous is YELLOW and
co2 < yellow - hysteresis) or (previous is GREEN or OFF and co2 < yellow));
it returns YELLOW exactly in every remaining case. -/
theorem C2_green_iff (cfg : Config) (co2 : Int) (temp rh : CFloat) (led_state : Int) :
    ((LEDsystem cfg co2 temp rh led_state).1 = GREEN ↔
      ¬ ((led_state = RED ∧ co2 > cfg.co2_threshold_red - cfg.co2_hysteresis) ∨
        ((led_state = YELLOW ∨ led_state = OFF) ∧ co2 > cfg.co2_threshold_red)) ∧
      ((led_state = YELLOW ∧ co2 < cfg.co2_threshold_yellow - cfg.co2_hysteresis) ∨
        ((led_state = GREEN ∨ led_state = OFF) ∧ co2 < cfg.co2_threshold_yellow))) ∧
    ((LEDsystem cfg co2 temp rh led_state).1 = YELLOW ↔
      ¬ ((led_state = RED ∧ co2 > cfg.co2_threshold_red - cfg.co2_hysteresis) ∨
        ((led_state = YELLOW ∨ led_state = OFF) ∧ co2 > cfg.co2_threshold_red)) ∧
      ¬ ((led_state = YELLOW ∧ co2 < cfg.co2_threshold_yellow - cfg.co2_hysteresis) ∨
        ((led_state = GREEN ∨ led_state = OFF) ∧ co2 < cfg.co2_threshold_yellow))) := by
  obtain ⟨hgr, hyr, hyg, -, -, -⟩ := led_states_ne
  have key := LEDsystem_fst cfg co2 temp rh led_state
  unfold redRule greenRule at key
  rw [key]
  constructor
  · split_ifs with h1 h2
    · exact ⟨fun h => absurd h.symm hgr, fun h => absurd h1 h.1⟩
    · exact ⟨fun _ => ⟨h1, h2⟩, fun _ => rfl⟩
    · exact ⟨fun h => absurd h hyg, fun h => absurd h.2 h2⟩
  · split_ifs with h1 h2
    · exact ⟨fun h => absurd h.symm hyr, fun h => absurd h1 h.1⟩
    · exact ⟨fun h => absurd h.symm hyg, fun h => absurd h2 h.2⟩
    · exact ⟨fun _ => ⟨h1, h2⟩, fun _ => rfl⟩

/-- C3, as stated, fails: with yellow = 1000, red = 1900, hysteresis = 200 and
previous state GREEN, the reading co2 = 1000 (equal to the yellow threshold)
gives YELLOW, not GREEN. -/
theorem C3_counterexample :
    (LEDsystem defaultConfig 1000 (CFloat.val 0) (CFloat.val 0) GREEN).1 = YELLOW ∧
    (LEDsystem defaultConfig 1000 (CFloat.val 0) (CFloat.val 0) GREEN).1 ≠ GREEN := by
  decide

/-- C3, amended: starting from GREEN, a reading equal to the yellow threshold
already gives YELLOW (the comparison is strict), the last reading that keeps
GREEN is yellow - 1, and yellow + 1 gives YELLOW; with the default thresholds
999 gives GREEN, 1000 and 1001 give YELLOW. -/
theorem C3_green_boundary (cfg : Config) (temp rh : CFloat) :
    (LEDsystem cfg cfg.co2_threshold_yellow temp rh GREEN).1 = YELLOW ∧
    (LEDsystem cfg (cfg.co2_threshold_yellow - 1) temp rh GREEN).1 = GREEN ∧
    (LEDsystem cfg (cfg.co2_threshold_yellow + 1) temp rh GREEN).1 = YELLOW ∧
    (LEDsystem defaultConfig 999 temp rh GREEN).1 = GREEN ∧
    (LEDsystem defaultConfig 1000 temp rh GREEN).1 = YELLOW ∧
    (LEDsystem defaultConfig 1001 temp rh GREEN).1 = YELLOW := by
  obtain ⟨hgr, hyr, hyg, -, -, -⟩ := led_states_ne
  have from_green : ∀ (c : Config) (co2 : Int),
      (LEDsystem c co2 temp rh GREEN).1 =
        if co2 < c.co2_threshold_yellow then GREEN else YELLOW := by
    intro c co2
    rw [LEDsystem_fst]
    have h1 : ¬ redRule c co2 GREEN := by
      rintro (⟨h, -⟩ | ⟨h | h, -⟩) <;> revert h <;> decide
    rw [if_neg h1]
    by_cases h : co2 < c.co2_threshold_yellow
    · rw [if_pos h, if_pos (Or.inr ⟨Or.inl rfl, h⟩)]
    · rw [if_neg h, if_neg]
      rintro (⟨h', -⟩ | ⟨-, h'⟩)
      · exact hyg h'.symm
      · exact h h'
  refine ⟨?_, ?_, ?_, ?_, ?_, ?_⟩
  · rw [from_green, if_neg (lt_irrefl _)]
  · rw [from_green, if_pos (by omega)]
  · rw [from_green, if_neg (by omega)]
  · rw [from_green]; decide
  · rw [from_green]; decide
  · rw [from_green]; decide

/-- C4: from RED `LEDsystem` returns RED exactly when co2 > red - hysteresis;
from YELLOW with co2 <= red it returns GREEN exactly when
co2 < yellow - hysteresis and YELLOW otherwise.  With the default thresholds:
from YELLOW 900 gives YELLOW and 799 gives GREEN, from RED 1750 gives RED and
1699 gives YELLOW. -/
theorem C4_hysteresis_exit (cfg : Config) (co2 : Int) (temp rh : CFloat) :
    ((LEDsystem cfg co2 temp rh RED).1 = RED ↔
      co2 > cfg.co2_threshold_red - cfg.co2_hysteresis) ∧
    (co2 ≤ cfg.co2_threshold_red →
      ((LEDsystem cfg co2 temp rh YELLOW).1 = GREEN ↔
        co2 < cfg.co2_threshold_yellow - cfg.co2_hysteresis) ∧
      (¬ co2 < cfg.co2_threshold_yellow - cfg.co2_hysteresis →
        (LEDsystem cfg co2 temp rh YELLOW).1 = YELLOW)) ∧
    (LEDsystem defaultConfig 900 temp rh YELLOW).1 = YELLOW ∧
    (LEDsystem defaultConfig 799 temp rh YELLOW).1 = GREEN ∧
    (LEDsystem defaultConfig 1750 temp rh RED).1 = RED ∧
    (LEDsystem defaultConfig 1699 temp rh RED).1 = YELLOW := by
  obtain ⟨hgr, hyr, hyg, hor, hog, hoy⟩ := led_states_ne
  have from_red : ∀ (c : Config) (x : Int),
      (LEDsystem c x temp rh RED).1 =
        if x > c.co2_threshold_red - c.co2_hysteresis then RED else YELLOW := by
    intro c x
    rw [LEDsystem_fst]
    have hg : ¬ greenRule c x RED := by
      rintro (⟨h, -⟩ | ⟨h | h, -⟩)
      · exact hyr h.symm
      · exact hgr h.symm
      · exact hor h.symm
    rw [if_neg hg]
    by_cases h : x > c.co2_threshold_red - c.co2_hysteresis
    · rw [if_pos h, if_pos (Or.inl ⟨rfl, h⟩)]
    · rw [if_neg h, if_neg]
      rintro (⟨-, h'⟩ | ⟨h' | h', -⟩)
      · exact h h'
      · exact hyr h'.symm
      · exact hor h'.symm
  have from_yellow : ∀ (c : Config) (x : Int), x ≤ c.co2_threshold_red →
      (LEDsystem c x temp rh YELLOW).1 =
        if x < c.co2_threshold_yellow - c.co2_hysteresis then GREEN else YELLOW := by
    intro c x hx
    rw [LEDsystem_fst]
    have hr : ¬ redRule c x YELLOW := by
      rintro (⟨h, -⟩ | ⟨-, h⟩)
      · exact hyr h
      · exact absurd h (not_lt.mpr hx)
    rw [if_neg hr]
    by_cases h : x < c.co2_threshold_yellow - c.co2_hysteresis
    · rw [if_pos h, if_pos (Or.inl ⟨rfl, h⟩)]
    · rw [if_neg h, if_neg]
      rintro (⟨-, h'⟩ | ⟨h' | h', -⟩)
      · exact h h'
      · exact hyg h'
      · exact hoy h'.symm
  refine ⟨?_, ?_, ?_, ?_, ?_, ?_⟩
  · rw [from_red]
    split_ifs with h
    · exact ⟨fun _ => h, fun _ => rfl⟩
    · exact ⟨fun h' => absurd h' hyr, fun h' => absurd h' h⟩
  · intro hx
    rw [from_yellow cfg co2 hx]
    split_ifs with h
    · exact ⟨⟨fun _ => h, fun _ => rfl⟩, fun h' => absurd h h'⟩
    · exact ⟨⟨fun h' => absurd h' hyg, fun h' => absurd h' h⟩, fun _ => rfl⟩
  · rw [from_yellow _ _ (by decide)]; decide
  · rw [from_yellow _ _ (by decide)]; decide
  · rw [from_red]; decide
  · rw [from_red]; decide

/-- C4 at the default thresholds and co2 = 900: the reading is below red, not
below yellow - hysteresis = 800, and the state stays YELLOW. -/
theorem C4_hysteresis_exit_witness :
    (900 : Int) ≤ defaultConfig.co2_threshold_red ∧
    ¬ (900 : Int) < defaultConfig.co2_threshold_yellow - defaultConfig.co2_hysteresis ∧
    (LEDsystem defaultConfig 900 (CFloat.val 0) (CFloat.val 0) YELLOW).1 = YELLOW :=
  ⟨by decide, by decide,
    ((C4_hysteresis_exit defaultConfig 900 (CFloat.val 0) (CFloat.val 0)).2.1
      (by decide)).2 (by decide)⟩

/-! ## Theorems: CRC-8 -/

/-- XOR commutes with a left shift. -/
theorem xor_shiftLeft_same (a b n : Nat) : (a <<< n) ^^^ (b <<< n) = (a ^^^ b) <<< n := by
  apply Nat.eq_of_testBit_eq
  intro i
  simp only [Nat.testBit_xor, Nat.testBit_shiftLeft]
  by_cases h : n ≤ i <;> simp [h]

set_option maxRecDepth 100000 in
/-- One bit step of `crc8` on an accumulator with empty low byte is the bit
step of the 8-bit register, again with empty low byte. -/
theorem crc8_bit_shift : ∀ r < 256,
    crc8_bit (r <<< 8) = crc8_spec_bit r <<< 8 ∧ crc8_spec_bit r < 256 := by
  decide

/-- Any number of bit steps of `crc8` follows the 8-bit register. -/
theorem crc8_bit_iterate (n : Nat) : ∀ r < 256,
    crc8_bit^[n] (r <<< 8) = crc8_spec_bit^[n] r <<< 8 ∧ crc8_spec_bit^[n] r < 256 := by
  induction n with
  | zero => intro r hr; exact ⟨rfl, hr⟩
  | succ n ih =>
    intro r hr
    obtain ⟨h1, h2⟩ := crc8_bit_shift r hr
    rw [Function.iterate_succ_apply, Function.iterate_succ_apply, h1]
    exact ih _ h2

/-- One byte step of `crc8` follows the byte step of the 8-bit register. -/
theorem crc8_byte_shift (r b : Nat) (hr : r < 256) (hb : b < 256) :
    crc8_byte (r <<< 8) b = crc8_spec_byte r b <<< 8 ∧ crc8_spec_byte r b < 256 := by
  unfold crc8_byte crc8_spec_byte
  rw [xor_shiftLeft_same]
  exact crc8_bit_iterate 8 _ (Nat.xor_lt_two_pow (n := 8) hr hb)

/-- The accumulator of `crc8` is the 8-bit register shifted into the high
byte, from every starting register. -/
theorem crc8_foldl_shift (data : List Nat) (h : ∀ b ∈ data, b < 256) : ∀ r < 256,
    data.foldl crc8_byte (r <<< 8) = data.foldl crc8_spec_byte r <<< 8 ∧
      data.foldl crc8_spec_byte r < 256 := by
  induction data with
  | nil => intro r hr; exact ⟨rfl, hr⟩
  | cons b bs ih =>
    intro r hr
    obtain ⟨h1, h2⟩ := crc8_byte_shift r b hr (h b (List.mem_cons_self b bs))
    rw [List.foldl_cons, List.foldl_cons, h1]
    exact ih (fun x hx => h x (List.mem_cons_of_mem b hx)) _ h2

/-- C5: for every byte sequence `crc8` equals the bitwise CRC-8 with
polynomial 0x31, initial value 0, MSB first, computed on an 8-bit register;
the accumulator of the implementation stays below 2^16 with an empty low
byte, so `crc >> 8` is already that register and the cast to `uint8_t` drops
nothing.  Datasheet vector: crc8([0x68, 0x3A]) = 0x7C. -/
theorem C5_crc8_refines (data : List Nat) (h : ∀ b ∈ data, b < 256) :
    crc8 data = crc8_spec data ∧
    crc8_acc data < 2 ^ 16 ∧
    crc8_acc data % 256 = 0 ∧
    crc8_acc data >>> 8 = crc8_spec data ∧
    crc8 [0x68, 0x3A] = 0x7C := by
  obtain ⟨h1, h2⟩ := crc8_foldl_shift data h 0 (by decide)
  have hacc : crc8_acc data = crc8_spec data <<< 8 := h1
  have hlt : crc8_spec data < 256 := h2
  have hshift : crc8_acc data >>> 8 = crc8_spec data := by
    rw [hacc, Nat.shiftLeft_shiftRight]
  refine ⟨?_, ?_, ?_, hshift, by decide⟩
  · unfold crc8
    rw [hshift, Nat.mod_eq_of_lt hlt]
  · rw [hacc, Nat.shiftLeft_eq]
    omega
  · rw [hacc, Nat.shiftLeft_eq]
    omega

/-- C5 at the datasheet vector: the bytes 0x68, 0x3A are below 256 and both
computations give 0x7C. -/
theorem C5_crc8_refines_witness :
    (∀ b ∈ [0x68, 0x3A], b < 256) ∧ crc8 [0x68, 0x3A] = crc8_spec [0x68, 0x3A] ∧
      crc8_spec [0x68, 0x3A] = 0x7C :=
  ⟨by decide, (C5_crc8_refines [0x68, 0x3A] (by decide)).1, by decide⟩

/-! ## Theorems: the CO2 driver -/

/-- The loop fuel as a successor, to unfold one pass of a loop. -/
theorem loopFuel_eq : loopFuel = 255 + 1 := rfl

/-- A request of `CO2` that is written in full at once ends the write loop. -/
theorem CO2_write_loop_ok (bus : Bus) (fuel : Nat) (st : CO2State)
    (h : (bus st.trace.length).status = 4) :
    CO2_write_loop bus (fuel + 1) st =
      some (4, { st with trace := st.trace ++ [BusOp.write CO2_request] }) := by
  simp [CO2_write_loop, h]

set_option maxRecDepth 100000 in
/-- Flipping one bit of a byte gives a different byte. -/
theorem byte_flip_ne : ∀ b < 256, ∀ i < 8,
    b ^^^ (1 <<< i) < 256 ∧ b ^^^ (1 <<< i) ≠ b := by
  decide

/-- A command write of `si7021` that is written at once. -/
theorem si7021_write_loop_ok (bus : Bus) (command fuel : Nat) (st : SiState)
    (h : (bus st.trace.length).status = 1) :
    si7021_write_loop bus command (fuel + 1) st =
      some (1, { st with trace := st.trace ++ [BusOp.write [command]] }) := by
  simp [si7021_write_loop, h]

/-- A read of `si7021` that delivers all bytes at once. -/
theorem si7021_read_loop_ok (bus : Bus) (n fuel : Nat) (st : SiState)
    (h : (bus st.trace.length).status = n) :
    si7021_read_loop bus n (fuel + 1) st =
      some ((n : Int), { st with
        trace := st.trace ++ [BusOp.read n]
        buffer_read := fillBuffer n (bus st.trace.length).data ++ st.buffer_read.drop n }) := by
  simp [si7021_read_loop, h]

/-- A read of three bytes leaves exactly these bytes in the buffer. -/
theorem fillBuffer_three (a b c : Nat) (ha : a < 256) (hb : b < 256) (hc : c < 256) :
    fillBuffer 3 [a, b, c] = [a, b, c] := by
  have hr : List.range 3 = [0, 1, 2] := by decide
  simp [fillBuffer, hr, Nat.mod_eq_of_lt, ha, hb, hc]

/-- The humidity loop body of `si7021` on an undisturbed exchange: the CRC
test decides between storing the converted humidity and counting an error. -/
theorem si7021_rh_body_exchange (bus : Bus) (st : SiState) (rh_hi rh_lo crc : Nat)
    (hh : rh_hi < 256) (hl : rh_lo < 256) (hc : crc < 256)
    (h : rhExchangeOk bus st.trace.length [rh_hi, rh_lo, crc]) :
    si7021_rh_body bus st = some (Ctl.done (
      if crc8 [rh_hi, rh_lo] = crc then
        { st with
          trace := st.trace ++ si7021_rh_ops
          buffer_read := [rh_hi, rh_lo, crc] ++ st.buffer_read.drop 3
          rh := CFloat.val (rh_stored (256 * rh_hi + rh_lo))
          success := 1 }
      else
        { st with
          trace := st.trace ++ si7021_rh_ops
          buffer_read := [rh_hi, rh_lo, crc] ++ st.buffer_read.drop 3
          checksum_error_cnt := (st.checksum_error_cnt + 1) % 256 })) := by
  obtain ⟨h0, h1, hd⟩ := h
  have hraw : ((rh_hi <<< 8) + rh_lo) % 65536 = 256 * rh_hi + rh_lo := by
    rw [Nat.shiftLeft_eq]; omega
  unfold si7021_rh_body
  rw [loopFuel_eq, si7021_write_loop_ok bus _ _ st h0]
  simp only [ne_eq, not_true_eq_false, if_false]
  rw [si7021_read_loop_ok bus 3 _ _ (by simpa using h1)]
  simp only [List.length_append, List.length_singleton, hd, fillBuffer_three _ _ _ hh hl hc]
  simp [si7021_rh_ops, rawCode, byteAt, hraw]
  split_ifs <;> rfl

/-- C8 fails on the code: for the CRC-valid response {0x68, 0x3A, 0x7C}
(raw = 26682) the formula gives 1471017/32768 = 44.89..., a mid-range value,
but `si7021` stores 44: `(125 * rh_bytes) / 65536` is an integer division. -/
theorem C8_humidity_truncated :
    crc8 [0x68, 0x3A] = 0x7C ∧
    rh_spec 26682 = 1471017 / 32768 ∧
    rh_stored 26682 = 44 ∧
    rh_stored 26682 ≠ rh_spec 26682 ∧
    ∃ st, si7021 (scriptBus [⟨0, []⟩, ⟨1, []⟩, ⟨3, [0x68, 0x3A, 0x7C]⟩, ⟨1, []⟩,
        ⟨2, [0x66, 0x4C]⟩]) (CFloat.val 0) (CFloat.val 0) = some (0, st) ∧
      st.rh = CFloat.val 44 := by
  have hs : rh_stored 26682 = 44 := by
    simp [rh_stored, rh_local]
  have hf : rh_spec 26682 = 1471017 / 32768 := by
    simp [rh_spec, rh_formula]
    norm_num
  refine ⟨by decide, hf, hs, ?_, ?_⟩
  · rw [hs, hf]; norm_num
  · exact ⟨_, rfl, congrArg CFloat.val hs⟩
/-- The integer `rh_local` against the exact formula: the formula is below 0
exactly for raw codes up to 3145 and above 100 exactly for raw codes from
55575 on. -/
theorem rh_formula_bounds (raw : Nat) :
    (rh_formula raw < 0 ↔ 125 * raw < 393216) ∧ (rh_formula raw > 100 ↔ 6946816 < 125 * raw) ∧
    (rh_formula raw < 101 ↔ 125 * raw < 7012352) := by
  unfold rh_formula
  refine ⟨?_, ?_, ?_⟩
  · rw [sub_neg, div_lt_iff₀ (by norm_num)]
    norm_num
    exact_mod_cast Iff.rfl
  · rw [gt_iff_lt, lt_sub_iff_add_lt, lt_div_iff₀ (by norm_num)]
    norm_num
    exact_mod_cast Iff.rfl
  · rw [sub_lt_iff_lt_add, div_lt_iff₀ (by norm_num)]
    norm_num
    exact_mod_cast Iff.rfl

/-- C9: for every 16-bit raw humidity code the value `si7021` stores on a
CRC-valid response is `rh_stored raw`, which lies in [0, 100], is exactly 0
whenever the exact formula 125 * raw / 65536 - 6 is below 0 and exactly 100
whenever it is above 100, the raw codes 55575..56098 (formula between 100 and
101) included. -/
theorem C9_humidity_clamped (raw : Nat) (h : raw < 65536) :
    (∀ (bus : Bus) (st : SiState),
      rhExchangeOk bus st.trace.length [raw / 256, raw % 256, crc8 [raw / 256, raw % 256]] →
      si7021_rh_body bus st = some (Ctl.done { st with
        trace := st.trace ++ si7021_rh_ops
        buffer_read := [raw / 256, raw % 256, crc8 [raw / 256, raw % 256]] ++
          st.buffer_read.drop 3
        rh := CFloat.val (rh_stored raw)
        success := 1 })) ∧
    (0 ≤ rh_stored raw ∧ rh_stored raw ≤ 100) ∧
    (rh_formula raw < 0 → rh_stored raw = 0) ∧
    (rh_formula raw > 100 → rh_stored raw = 100) ∧
    (55575 ≤ raw → raw ≤ 56098 →
      100 < rh_formula raw ∧ rh_formula raw < 101 ∧ rh_stored raw = 100) := by
  obtain ⟨hneg, hbig, h101⟩ := rh_formula_bounds raw
  have hlow : rh_formula raw < 0 → rh_stored raw = 0 := by
    intro hf
    have h1 : 125 * raw < 393216 := hneg.mp hf
    have h2 : rh_local raw < 0 := by unfold rh_local; omega
    simp [rh_stored, h2]
  have hhigh : rh_formula raw > 100 → rh_stored raw = 100 := by
    intro hf
    have h1 : 6946816 < 125 * raw := hbig.mp hf
    have h2 : ¬ rh_local raw < 0 := by unfold rh_local; omega
    unfold rh_stored
    rw [if_neg h2]
    split_ifs with h3
    · rfl
    · have h4 : rh_local raw = 100 := by unfold rh_local at h3 ⊢; omega
      rw [h4]; norm_num
  refine ⟨?_, ?_, hlow, hhigh, ?_⟩
  · intro bus st hx
    have hb := si7021_rh_body_exchange bus st (raw / 256) (raw % 256)
      (crc8 [raw / 256, raw % 256]) (by omega) (by omega)
      (by unfold crc8; exact Nat.mod_lt _ (by decide)) hx
    rw [if_pos rfl] at hb
    have hr : 256 * (raw / 256) + raw % 256 = raw := by omega
    rw [hr] at hb
    exact hb
  · unfold rh_stored
    split_ifs with h1 h2
    · exact ⟨le_refl _, by norm_num⟩
    · exact ⟨by norm_num, le_refl _⟩
    · exact ⟨by exact_mod_cast not_lt.mp h1, by exact_mod_cast not_lt.mp h2⟩
  · intro h1 h2
    have h3 : 100 < rh_formula raw := hbig.mpr (by omega)
    exact ⟨h3, h101.mpr (by omega), hhigh h3⟩

/-- C9 at the raw codes 56000 and 100: the formula is above 100 resp. below
0 and the stored value is exactly 100 resp. 0. -/
theorem C9_humidity_clamped_witness :
    (rh_formula 56000 > 100 ∧ rh_stored 56000 = 100) ∧
    (rh_formula 100 < 0 ∧ rh_stored 100 = 0) :=
  ⟨⟨by norm_num [rh_formula],
      (C9_humidity_clamped 56000 (by decide)).2.2.2.1 (by norm_num [rh_formula])⟩,
    ⟨by norm_num [rh_formula],
      (C9_humidity_clamped 100 (by decide)).2.2.1 (by norm_num [rh_formula])⟩⟩

/-- A write loop of `si7021` touches only its counter and the trace. -/
theorem si7021_write_loop_frame (bus : Bus) (command fuel : Nat) :
    ∀ (st st' : SiState) (c : Int), si7021_write_loop bus command fuel st = some (c, st') →
      st'.temp = st.temp ∧ st'.rh = st.rh ∧ st'.success = st.success := by
  induction fuel with
  | zero => intro st st' c h; simp [si7021_write_loop] at h
  | succ fuel ih =>
    intro st st' c h
    rw [si7021_write_loop] at h
    simp only at h
    split_ifs at h with h1 h2
    · have h3 := ih _ _ _ h
      exact h3
    · simp only [Option.some.injEq, Prod.mk.injEq] at h
      obtain ⟨-, rfl⟩ := h
      exact ⟨rfl, rfl, rfl⟩
    · simp only [Option.some.injEq, Prod.mk.injEq] at h
      obtain ⟨-, rfl⟩ := h
      exact ⟨rfl, rfl, rfl⟩

/-- A read loop of `si7021` touches only its counter, the buffer and the
trace. -/
theorem si7021_read_loop_frame (bus : Bus) (n fuel : Nat) :
    ∀ (st st' : SiState) (c : Int), si7021_read_loop bus n fuel st = some (c, st') →
      st'.temp = st.temp ∧ st'.rh = st.rh ∧ st'.success = st.success := by
  induction fuel with
  | zero => intro st st' c h; simp [si7021_read_loop] at h
  | succ fuel ih =>
    intro st st' c h
    rw [si7021_read_loop] at h
    simp only at h
    split_ifs at h with h1 h2
    · have h3 := ih _ _ _ h
      exact h3
    · simp only [Option.some.injEq, Prod.mk.injEq] at h
      obtain ⟨-, rfl⟩ := h
      exact ⟨rfl, rfl, rfl⟩
    · simp only [Option.some.injEq, Prod.mk.injEq] at h
      obtain ⟨-, rfl⟩ := h
      exact ⟨rfl, rfl, rfl⟩

/-- One pass of the humidity loop body of `si7021`: a `return` leaves the
outputs and `success` alone; otherwise `*temp` is kept and either nothing is
stored, or `success` is set and `*rh` holds a converted humidity. -/
theorem si7021_rh_body_frame (bus : Bus) (st : SiState) (r : Ctl SiState)
    (h : si7021_rh_body bus st = some r) :
    (∃ st', r = Ctl.returned 2 st' ∧ st'.temp = st.temp ∧ st'.rh = st.rh ∧
        st'.success = st.success) ∨
    (∃ st', r = Ctl.done st' ∧ st'.temp = st.temp ∧
      ((st'.success = st.success ∧ st'.rh = st.rh) ∨
        (st'.success = 1 ∧ ∃ raw, raw < 65536 ∧ st'.rh = CFloat.val (rh_stored raw)))) := by
  unfold si7021_rh_body at h
  cases hw : si7021_write_loop bus 0xE5 loopFuel st with
  | none => rw [hw] at h; simp at h
  | some p =>
    obtain ⟨sw, st1⟩ := p
    obtain ⟨ht1, hr1, hs1⟩ := si7021_write_loop_frame bus _ _ _ _ _ hw
    rw [hw] at h
    simp only at h
    split_ifs at h with h1
    · simp only [Option.some.injEq] at h
      exact Or.inl ⟨st1, h.symm, ht1, hr1, hs1⟩
    · cases hrd : si7021_read_loop bus 3 loopFuel st1 with
      | none => rw [hrd] at h; simp at h
      | some q =>
        obtain ⟨sr, st2⟩ := q
        obtain ⟨ht2, hr2, hs2⟩ := si7021_read_loop_frame bus _ _ _ _ _ hrd
        rw [hrd] at h
        simp only at h
        split_ifs at h with h2 h3
        · simp only [Option.some.injEq] at h
          exact Or.inl ⟨st2, h.symm, ht2.trans ht1, hr2.trans hr1, hs2.trans hs1⟩
        · simp only [Option.some.injEq] at h
          refine Or.inr ⟨_, h.symm, ht2.trans ht1, Or.inr ⟨rfl, rawCode st2.buffer_read, ?_, rfl⟩⟩
          unfold rawCode
          exact Nat.mod_lt _ (by decide)
        · simp only [Option.some.injEq] at h
          exact Or.inr ⟨_, h.symm, ht2.trans ht1, Or.inl ⟨hs2.trans hs1, hr2.trans hr1⟩⟩

/-- The humidity loop of `si7021`, entered with `success = 0`: `*temp` is
kept; `*rh` is kept as long as `success` is 0, and holds a converted humidity
once `success` is set. -/
theorem si7021_rh_loop_frame (bus : Bus) (fuel : Nat) :
    ∀ (st : SiState) (r : Ctl SiState), st.success = 0 →
      si7021_rh_loop bus fuel st = some r →
      (∃ st', r = Ctl.returned 2 st' ∧ st'.temp = st.temp ∧ st'.rh = st.rh ∧
          st'.success = 0) ∨
      (∃ st', r = Ctl.done st' ∧ st'.temp = st.temp ∧
        ((st'.success = 0 ∧ st'.rh = st.rh) ∨
          (st'.success = 1 ∧ ∃ raw, raw < 65536 ∧ st'.rh = CFloat.val (rh_stored raw)))) := by
  induction fuel with
  | zero => intro st r _ h; simp [si7021_rh_loop] at h
  | succ fuel ih =>
    intro st r hs0 h
    rw [si7021_rh_loop] at h
    cases hb : si7021_rh_body bus st with
    | none => rw [hb] at h; simp at h
    | some b =>
      rw [hb] at h
      rcases si7021_rh_body_frame bus st b hb with
        ⟨st1, rfl, ht1, hr1, hs1⟩ | ⟨st1, rfl, ht1, hcase⟩
      · simp only [Option.some.injEq] at h
        exact Or.inl ⟨st1, h.symm, ht1, hr1, hs1.trans hs0⟩
      · simp only at h
        split_ifs at h with hc
        · have hrh : st1.rh = st.rh := by
            rcases hcase with ⟨-, hr⟩ | ⟨hs, -⟩
            · exact hr
            · rw [hc.1] at hs; exact absurd hs (by decide)
          rcases ih st1 r hc.1 h with ⟨st2, hr2, ht2, hrh2, hs2⟩ | ⟨st2, hr2, ht2, hcase2⟩
          · exact Or.inl ⟨st2, hr2, ht2.trans ht1, hrh2.trans hrh, hs2⟩
          · refine Or.inr ⟨st2, hr2, ht2.trans ht1, ?_⟩
            rcases hcase2 with ⟨hs, hr⟩ | hset
            · exact Or.inl ⟨hs, hr.trans hrh⟩
            · exact Or.inr hset
        · simp only [Option.some.injEq] at h
          refine Or.inr ⟨st1, h.symm, ht1, ?_⟩
          rcases hcase with ⟨hs, hr⟩ | hset
          · exact Or.inl ⟨hs.trans hs0, hr⟩
          · exact Or.inr hset

/-- The temperature part of `si7021` stores nothing when it fails. -/
theorem si7021_temp_frame (bus : Bus) (st st' : SiState) (code : Int)
    (h : si7021_temp bus st = some (code, st')) (hc : code ≠ 0) :
    st'.temp = st.temp ∧ st'.rh = st.rh ∧ st'.success = st.success := by
  unfold si7021_temp at h
  simp only at h
  cases hw : si7021_write_loop bus 0xE0 loopFuel
      { st with
        buffer_read := [0, 0, 0]
        write_error_cnt := 0
        read_error_cnt := 0
        checksum_error_cnt := 0 } with
  | none => rw [hw] at h; simp at h
  | some p =>
    obtain ⟨sw, st1⟩ := p
    obtain ⟨ht1, hr1, hs1⟩ := si7021_write_loop_frame bus _ _ _ _ _ hw
    rw [hw] at h
    simp only at h
    split_ifs at h with h1
    · simp only [Option.some.injEq, Prod.mk.injEq] at h
      obtain ⟨-, rfl⟩ := h
      exact ⟨ht1, hr1, hs1⟩
    · cases hrd : si7021_read_loop bus 2 loopFuel st1 with
      | none => rw [hrd] at h; simp at h
      | some q =>
        obtain ⟨sr, st2⟩ := q
        obtain ⟨ht2, hr2, hs2⟩ := si7021_read_loop_frame bus _ _ _ _ _ hrd
        rw [hrd] at h
        simp only at h
        split_ifs at h with h2
        · simp only [Option.some.injEq, Prod.mk.injEq] at h
          obtain ⟨-, rfl⟩ := h
          exact ⟨ht2.trans ht1, hr2.trans hr1, hs2.trans hs1⟩
        · simp only [Option.some.injEq, Prod.mk.injEq] at h
          exact absurd h.1.symm hc

/-- C10, as stated, fails: after a CRC-valid humidity response
{0x68, 0x3A, 0x7C} every write of the temperature command fails; `si7021`
returns 2, and `*rh`, 50 before the call, holds 44 (while `*temp` is
untouched). -/
theorem C10_counterexample :
    ∃ st, si7021 (scriptBus [⟨0, []⟩, ⟨1, []⟩, ⟨3, [0x68, 0x3A, 0x7C]⟩])
        (CFloat.val 20) (CFloat.val 50) = some (2, st) ∧
      st.temp = CFloat.val 20 ∧ st.rh = CFloat.val 44 ∧ st.rh ≠ CFloat.val 50 := by
  have hs : rh_stored 26682 = 44 := by
    simp [rh_stored, rh_local]
  refine ⟨_, rfl, rfl, congrArg CFloat.val hs, ?_⟩
  intro h
  have h2 : CFloat.val (rh_stored 26682) = CFloat.val 50 := h
  rw [hs] at h2
  simp only [CFloat.val.injEq] at h2
  norm_num at h2

/-! ## Theorems: the classifier, further properties -/

/-- C15: the state `LEDsystem` returns and the pin writes it makes do not
depend on temp, rh or the temperature and humidity thresholds: two runs that
agree on co2, the previous state, the pins and the three CO2 thresholds give
the same result, whatever the two (temp, rh) pairs and the two settings of
the four temperature and humidity thresholds are. -/
theorem C15_LEDsystem_co2_only (cfg : Config) (co2 led_state : Int)
    (temp rh temp' rh' : CFloat) (ty tr hy hr : CFloat) :
    LEDsystem { cfg with
        temp_threshold_yellow := ty
        temp_threshold_red := tr
        rh_threshold_yellow := hy
        rh_threshold_red := hr } co2 temp' rh' led_state =
      LEDsystem cfg co2 temp rh led_state := by
  rfl

/-- C16: whatever the reading, the configuration and the previous state (any
integer), `LEDsystem` returns GREEN, YELLOW or RED and never OFF; so after a
first call of the acquisition loop, and after any further calls, led_state is
not OFF. -/
theorem C16_never_off (cfg : Config) (co2 : Int) (temp rh : CFloat) (led_state : Int) :
    ((LEDsystem cfg co2 temp rh led_state).1 = GREEN ∨
      (LEDsystem cfg co2 temp rh led_state).1 = YELLOW ∨
      (LEDsystem cfg co2 temp rh led_state).1 = RED) ∧
    (LEDsystem cfg co2 temp rh led_state).1 ≠ OFF ∧
    (∀ (cycles : List (Config × Int × CFloat × CFloat)) (c : Config × Int × CFloat × CFloat),
      led_state_after led_state (cycles ++ [c]) ≠ OFF) := by
  have h1 : ∀ (c : Config) (x : Int) (t r : CFloat) (s : Int),
      (LEDsystem c x t r s).1 = GREEN ∨ (LEDsystem c x t r s).1 = YELLOW ∨
        (LEDsystem c x t r s).1 = RED := by
    intro c x t r s
    rw [LEDsystem_fst]
    split_ifs
    · exact Or.inr (Or.inr rfl)
    · exact Or.inl rfl
    · exact Or.inr (Or.inl rfl)
  have h2 : ∀ (c : Config) (x : Int) (t r : CFloat) (s : Int),
      (LEDsystem c x t r s).1 ≠ OFF := by
    intro c x t r s
    obtain ⟨-, -, -, hor, hog, hoy⟩ := led_states_ne
    rcases h1 c x t r s with h | h | h <;> rw [h]
    · exact fun e => hog e.symm
    · exact fun e => hoy e.symm
    · exact fun e => hor e.symm
  refine ⟨h1 _ _ _ _ _, h2 _ _ _ _ _, ?_⟩
  intro cycles c
  unfold led_state_after
  rw [List.foldl_append]
  exact h2 _ _ _ _ _

/-- C17: `LEDsystem` writes the pins only on a change of state: when the
returned state equals the previous one it makes no `digitalWrite` call, and
when it differs it makes exactly three, in the order green, yellow, red,
setting the pin of the new state HIGH and the other two LOW. -/
theorem C17_writes_on_transition (cfg : Config) (co2 : Int) (temp rh : CFloat)
    (led_state : Int) :
    ((LEDsystem cfg co2 temp rh led_state).1 = led_state →
      (LEDsystem cfg co2 temp rh led_state).2 = []) ∧
    ((LEDsystem cfg co2 temp rh led_state).1 ≠ led_state →
      (LEDsystem cfg co2 temp rh led_state).2 =
        [⟨cfg.green_pin, decide ((LEDsystem cfg co2 temp rh led_state).1 = GREEN)⟩,
         ⟨cfg.yellow_pin, decide ((LEDsystem cfg co2 temp rh led_state).1 = YELLOW)⟩,
         ⟨cfg.red_pin, decide ((LEDsystem cfg co2 temp rh led_state).1 = RED)⟩]) := by
  unfold LEDsystem
  split_ifs <;>
    simp_all [GREEN, YELLOW, RED, OFF, HIGH, LOW] <;> omega

/-- C17 at the default thresholds: from GREEN the reading 500 keeps GREEN with
no pin write, the reading 1500 gives YELLOW with the three writes. -/
theorem C17_writes_on_transition_witness :
    (LEDsystem defaultConfig 500 (CFloat.val 0) (CFloat.val 0) GREEN).2 = [] ∧
    (LEDsystem defaultConfig 1500 (CFloat.val 0) (CFloat.val 0) GREEN).2 =
      [⟨0, LOW⟩, ⟨1, HIGH⟩, ⟨2, LOW⟩] :=
  ⟨(C17_writes_on_transition defaultConfig 500 (CFloat.val 0) (CFloat.val 0) GREEN).1
      (by decide),
    ((C17_writes_on_transition defaultConfig 1500 (CFloat.val 0) (CFloat.val 0) GREEN).2
      (by decide)).trans (by decide)⟩

/-- C20: `LEDsystem` is monotone in the reading: for every previous state and
every configuration, co2_a <= co2_b gives
LEDsystem(co2_a, prev) <= LEDsystem(co2_b, prev) in the order
GREEN < YELLOW < RED (the order of the integer codes 1 < 2 < 3). -/
theorem C20_monotone (cfg : Config) (co2_a co2_b : Int) (temp rh : CFloat) (led_state : Int)
    (h : co2_a ≤ co2_b) :
    (LEDsystem cfg co2_a temp rh led_state).1 ≤ (LEDsystem cfg co2_b temp rh led_state).1 ∧
    GREEN < YELLOW ∧ YELLOW < RED := by
  refine ⟨?_, by decide, by decide⟩
  rw [LEDsystem_fst, LEDsystem_fst]
  unfold redRule greenRule
  split_ifs with h1 h2 h3 h4 h5 h6 h7 h8 <;>
    simp only [GREEN, YELLOW, RED, OFF] at * <;> omega

/-- C20 at the default thresholds from YELLOW: 700 <= 2000 and the results
are GREEN <= RED. -/
theorem C20_monotone_witness :
    (700 : Int) ≤ 2000 ∧
    (LEDsystem defaultConfig 700 (CFloat.val 0) (CFloat.val 0) YELLOW).1 = GREEN ∧
    (LEDsystem defaultConfig 2000 (CFloat.val 0) (CFloat.val 0) YELLOW).1 = RED ∧
    (LEDsystem defaultConfig 700 (CFloat.val 0) (CFloat.val 0) YELLOW).1 ≤
      (LEDsystem defaultConfig 2000 (CFloat.val 0) (CFloat.val 0) YELLOW).1 :=
  ⟨by decide, by decide, by decide,
    (C20_monotone defaultConfig 700 2000 (CFloat.val 0) (CFloat.val 0) YELLOW (by decide)).1⟩

/-- The three outcomes of `LEDsystem` with the branch conditions that lead to
them. -/
theorem LEDsystem_cases (cfg : Config) (co2 : Int) (temp rh : CFloat) (led_state : Int) :
    ((LEDsystem cfg co2 temp rh led_state).1 = RED ∧ redRule cfg co2 led_state) ∨
    ((LEDsystem cfg co2 temp rh led_state).1 = GREEN ∧ ¬ redRule cfg co2 led_state ∧
      greenRule cfg co2 led_state) ∨
    ((LEDsystem cfg co2 temp rh led_state).1 = YELLOW ∧ ¬ redRule cfg co2 led_state ∧
      ¬ greenRule cfg co2 led_state) := by
  rw [LEDsystem_fst]
  split_ifs with h1 h2
  · exact Or.inl ⟨rfl, h1⟩
  · exact Or.inr (Or.inl ⟨rfl, h1, h2⟩)
  · exact Or.inr (Or.inr ⟨rfl, h1, h2⟩)

/-- C21: under a constant reading the indicator settles after at most two
cycles: with co2_hysteresis >= 0 and yellow <= red, for every reading and
previous state, s2 = LEDsystem(co2, LEDsystem(co2, s)) satisfies
LEDsystem(co2, s2) = s2.  One application is not always enough: from GREEN
with the default thresholds and co2 = 2000 the first result is YELLOW and the
second RED. -/
theorem C21_settles_in_two (cfg : Config) (co2 : Int) (temp rh : CFloat) (s : Int)
    (hh : 0 ≤ cfg.co2_hysteresis) (hyr : cfg.co2_threshold_yellow ≤ cfg.co2_threshold_red) :
    (LEDsystem cfg co2 temp rh
        (LEDsystem cfg co2 temp rh (LEDsystem cfg co2 temp rh s).1).1).1 =
      (LEDsystem cfg co2 temp rh (LEDsystem cfg co2 temp rh s).1).1 ∧
    (LEDsystem defaultConfig 2000 temp rh GREEN).1 = YELLOW ∧
    (LEDsystem defaultConfig 2000 temp rh YELLOW).1 = RED := by
  refine ⟨?_, ?_, ?_⟩
  · rcases LEDsystem_cases cfg co2 temp rh s with ⟨e1, c1⟩ | ⟨e1, c1, d1⟩ | ⟨e1, c1, d1⟩ <;>
      rw [e1] <;>
      rcases LEDsystem_cases cfg co2 temp rh (LEDsystem cfg co2 temp rh s).1 with
        ⟨e2, c2⟩ | ⟨e2, c2, d2⟩ | ⟨e2, c2, d2⟩ <;>
      rw [e1] at e2 c2 <;> (try rw [e1] at d2) <;> rw [e2] <;>
      rcases LEDsystem_cases cfg co2 temp rh
        (LEDsystem cfg co2 temp rh (LEDsystem cfg co2 temp rh s).1).1 with
        ⟨e3, c3⟩ | ⟨e3, c3, d3⟩ | ⟨e3, c3, d3⟩ <;>
      rw [e1, e2] at e3 c3 <;> (try rw [e1, e2] at d3) <;> rw [e3] <;>
      simp only [redRule, greenRule, GREEN, YELLOW, RED, OFF, true_and, true_or, and_true,
        or_true, false_and, false_or, and_false, or_false] at * <;> omega
  · rw [LEDsystem_fst]; decide
  · rw [LEDsystem_fst]; decide

/-- C21 at the default thresholds (hysteresis 200 >= 0, 1000 <= 1900), from
GREEN with co2 = 2000: the second result RED is a fixed point. -/
theorem C21_settles_in_two_witness :
    (0 : Int) ≤ defaultConfig.co2_hysteresis ∧
    defaultConfig.co2_threshold_yellow ≤ defaultConfig.co2_threshold_red ∧
    (LEDsystem defaultConfig 2000 (CFloat.val 0) (CFloat.val 0)
      (LEDsystem defaultConfig 2000 (CFloat.val 0) (CFloat.val 0)
        (LEDsystem defaultConfig 2000 (CFloat.val 0) (CFloat.val 0) GREEN).1).1).1 =
      (LEDsystem defaultConfig 2000 (CFloat.val 0) (CFloat.val 0)
        (LEDsystem defaultConfig 2000 (CFloat.val 0) (CFloat.val 0) GREEN).1).1 :=
  ⟨by decide, by decide,
    (C21_settles_in_two defaultConfig 2000 (CFloat.val 0) (CFloat.val 0) GREEN (by decide)
      (by decide)).1⟩

/-! ## Theorems: CRC-8 detects single-bit errors -/

/-- On byte lists `crc8` is the register of the 8-bit CRC, a byte. -/
theorem crc8_eq_spec (data : List Nat) (h : ∀ b ∈ data, b < 256) :
    crc8 data = crc8_spec data ∧ crc8_spec data < 256 := by
  obtain ⟨h1, h2⟩ := crc8_foldl_shift data h 0 (by decide)
  have hacc : crc8_acc data = crc8_spec data <<< 8 := h1
  refine ⟨?_, h2⟩
  unfold crc8
  rw [hacc, Nat.shiftLeft_shiftRight]
  exact Nat.mod_eq_of_lt h2

set_option maxRecDepth 100000 in
/-- The bit step of the 8-bit CRC register can be undone: the lowest bit of
the result tells whether the generator was XORed in. -/
theorem crc8_spec_bit_left_inverse : ∀ r < 256,
    (fun y => if y % 2 = 1 then ((y ^^^ 0x31) >>> 1) ||| 0x80 else y >>> 1)
      (crc8_spec_bit r) = r := by
  decide

/-- Any number of bit steps of the 8-bit CRC register is injective on
bytes. -/
theorem crc8_spec_bit_iterate_injective (n : Nat) : ∀ x < 256, ∀ y < 256,
    crc8_spec_bit^[n] x = crc8_spec_bit^[n] y → x = y := by
  induction n with
  | zero => intro x _ y _ h; exact h
  | succ n ih =>
    intro x hx y hy h
    rw [Function.iterate_succ_apply, Function.iterate_succ_apply] at h
    have h1 := ih _ (crc8_bit_shift x hx).2 _ (crc8_bit_shift y hy).2 h
    have h2 := crc8_spec_bit_left_inverse x hx
    have h3 := crc8_spec_bit_left_inverse y hy
    rw [h1] at h2
    exact h2.symm.trans h3

/-- The CRC of two bytes changes when exactly one of the two bytes
changes. -/
theorem crc8_two_bytes_ne (a b a' b' : Nat) (ha : a < 256) (hb : b < 256) (ha' : a' < 256)
    (hb' : b' < 256) (hne : (a ≠ a' ∧ b = b') ∨ (a = a' ∧ b ≠ b')) :
    crc8 [a, b] ≠ crc8 [a', b'] := by
  have hm : ∀ x y : Nat, x < 256 → y < 256 → ∀ z ∈ [x, y], z < 256 := by
    intro x y hx hy z hz
    simp only [List.mem_cons, List.mem_singleton, List.not_mem_nil, or_false] at hz
    rcases hz with rfl | rfl
    · exact hx
    · exact hy
  rw [(crc8_eq_spec [a, b] (hm a b ha hb)).1, (crc8_eq_spec [a', b'] (hm a' b' ha' hb')).1]
  intro h
  simp only [crc8_spec, List.foldl_cons, List.foldl_nil, crc8_spec_byte, Nat.zero_xor] at h
  have hTa : crc8_spec_bit^[8] a < 256 := (crc8_bit_iterate 8 a ha).2
  have hTa' : crc8_spec_bit^[8] a' < 256 := (crc8_bit_iterate 8 a' ha').2
  have h1 := crc8_spec_bit_iterate_injective 8 _ (Nat.xor_lt_two_pow (n := 8) hTa hb) _
    (Nat.xor_lt_two_pow (n := 8) hTa' hb') h
  rcases hne with ⟨hA, hB⟩ | ⟨hA, hB⟩
  · rw [hB] at h1
    have h2 : crc8_spec_bit^[8] a = crc8_spec_bit^[8] a' := Nat.xor_left_injective h1
    exact hA (crc8_spec_bit_iterate_injective 8 a ha a' ha' h2)
  · rw [hA] at h1
    exact hB (Nat.xor_right_injective h1)

/-- C19: for all bytes rh_hi, rh_lo and each of the 24 bit positions, the
frame {rh_hi, rh_lo, crc8([rh_hi, rh_lo])} with that one bit flipped fails the
CRC comparison of `si7021` (the CRC of its first two bytes differs from its
third byte); received in an undisturbed humidity exchange it is not accepted:
nothing is stored, `success` stays as it is and `checksum_error_cnt` is
incremented. -/
theorem C19_crc8_detects_single_bit (rh_hi rh_lo k : Nat) (hh : rh_hi < 256)
    (hl : rh_lo < 256) (hk : k < 24) :
    crc8 ((flipBit [rh_hi, rh_lo, crc8 [rh_hi, rh_lo]] k).take 2) ≠
      byteAt (flipBit [rh_hi, rh_lo, crc8 [rh_hi, rh_lo]] k) 2 ∧
    (∀ (bus : Bus) (st : SiState),
      rhExchangeOk bus st.trace.length (flipBit [rh_hi, rh_lo, crc8 [rh_hi, rh_lo]] k) →
      si7021_rh_body bus st = some (Ctl.done { st with
        trace := st.trace ++ si7021_rh_ops
        buffer_read := flipBit [rh_hi, rh_lo, crc8 [rh_hi, rh_lo]] k ++ st.buffer_read.drop 3
        checksum_error_cnt := (st.checksum_error_cnt + 1) % 256 })) := by
  have hc : crc8 [rh_hi, rh_lo] < 256 := by unfold crc8; exact Nat.mod_lt _ (by decide)
  have key : ∃ a b c, a < 256 ∧ b < 256 ∧ c < 256 ∧
      flipBit [rh_hi, rh_lo, crc8 [rh_hi, rh_lo]] k = [a, b, c] ∧ crc8 [a, b] ≠ c := by
    by_cases h0 : k < 8
    · obtain ⟨hlt, hne⟩ := byte_flip_ne rh_hi hh k h0
      refine ⟨_, _, _, hlt, hl, hc, by simp [flipBit, h0], ?_⟩
      exact crc8_two_bytes_ne _ _ _ _ hlt hl hh hl (Or.inl ⟨hne, rfl⟩)
    · by_cases h1 : k - 8 < 8
      · obtain ⟨hlt, hne⟩ := byte_flip_ne rh_lo hl (k - 8) h1
        refine ⟨_, _, _, hh, hlt, hc, by simp [flipBit, h0, h1], ?_⟩
        exact crc8_two_bytes_ne _ _ _ _ hh hlt hh hl (Or.inr ⟨rfl, hne⟩)
      · have h2 : k - 8 - 8 < 8 := by omega
        obtain ⟨hlt, hne⟩ := byte_flip_ne _ hc (k - 8 - 8) h2
        refine ⟨_, _, _, hh, hl, hlt, by simp [flipBit, h0, h1, h2], ?_⟩
        exact fun e => hne e.symm
  obtain ⟨a, b, c, ha, hb, hc', hf, hne⟩ := key
  rw [hf]
  refine ⟨by simpa [byteAt] using hne, ?_⟩
  intro bus st hx
  have hbody := si7021_rh_body_exchange bus st a b c ha hb hc' hx
  rw [if_neg hne] at hbody
  exact hbody

/-- C19 at the frame {0x68, 0x3A, 0x7C} with the lowest bit of the first byte
flipped: the CRC of {0x69, 0x3A} is not 0x7C. -/
theorem C19_crc8_detects_single_bit_witness :
    flipBit [0x68, 0x3A, crc8 [0x68, 0x3A]] 0 = [0x69, 0x3A, 0x7C] ∧
    crc8 ((flipBit [0x68, 0x3A, crc8 [0x68, 0x3A]] 0).take 2) ≠
      byteAt (flipBit [0x68, 0x3A, crc8 [0x68, 0x3A]] 0) 2 :=
  ⟨by decide, (C19_crc8_detects_single_bit 0x68 0x3A 0 (by decide) (by decide) (by decide)).1⟩

/-! ## Theorems: the loops of the CO2 driver -/

/-- Appending one request write to a trace. -/
theorem requestWrites_append_request (trace : List BusOp) :
    requestWrites (trace ++ [BusOp.write CO2_request]) = requestWrites trace + 1 := by
  simp [requestWrites, List.count_append]

/-- Appending a read to a trace adds no request write. -/
theorem requestWrites_append_read (trace : List BusOp) (n : Nat) :
    requestWrites (trace ++ [BusOp.read n]) = requestWrites trace := by
  simp [requestWrites, List.count_append]

/-- The three calls that open a pass of `CO2` add no request write. -/
theorem requestWrites_append_wakeup (trace : List BusOp) :
    requestWrites (trace ++ [BusOp.ioctl 0x00]) = requestWrites trace ∧
    requestWrites (trace ++ [BusOp.ioctl 0x00] ++ [BusOp.write [0x22]] ++ [BusOp.ioctl 0x68]) =
      requestWrites trace := by
  constructor <;> simp [requestWrites, List.count_append, CO2_request]

/-- One pass of the write loop of `CO2` whose write fails. -/
theorem CO2_write_loop_fail (bus : Bus) (fuel : Nat) (st : CO2State)
    (h : (bus st.trace.length).status ≠ 4) :
    CO2_write_loop bus (fuel + 1) st =
      if (st.write_error_cnt + 1) % 256 < MAX_ERROR_CNT then
        CO2_write_loop bus fuel { st with
          trace := st.trace ++ [BusOp.write CO2_request]
          write_error_cnt := (st.write_error_cnt + 1) % 256
          checksum_error_cnt := (st.checksum_error_cnt + 1) % 256 }
      else
        some ((bus st.trace.length).status, { st with
          trace := st.trace ++ [BusOp.write CO2_request]
          write_error_cnt := (st.write_error_cnt + 1) % 256
          checksum_error_cnt := (st.checksum_error_cnt + 1) % 256 }) := by
  simp [CO2_write_loop, h]

/-- The write loop of `CO2`, entered with `write_error_cnt` below
`MAX_ERROR_CNT` and enough fuel, ends: after `k` failed writes either the
request is written (and the counter is still below the maximum) or the
counter has reached the maximum.  Each failed write counts in both
`write_error_cnt` and `checksum_error_cnt`; nothing else changes. -/
theorem CO2_write_loop_spec (bus : Bus) (fuel : Nat) : ∀ (st : CO2State),
    st.write_error_cnt < MAX_ERROR_CNT →
    st.checksum_error_cnt ≤ st.write_error_cnt + 100 →
    MAX_ERROR_CNT - st.write_error_cnt ≤ fuel →
    ∃ (status_write : Int) (st' : CO2State) (k : Nat),
      CO2_write_loop bus fuel st = some (status_write, st') ∧
      st'.co2 = st.co2 ∧ st'.success = st.success ∧
      st'.read_error_cnt = st.read_error_cnt ∧
      st'.write_error_cnt = st.write_error_cnt + k ∧
      st'.checksum_error_cnt = st.checksum_error_cnt + k ∧
      st.trace.length < st'.trace.length ∧
      ((status_write = 4 ∧ st'.write_error_cnt < MAX_ERROR_CNT ∧
          requestWrites st'.trace = requestWrites st.trace + k + 1) ∨
        (status_write ≠ 4 ∧ st'.write_error_cnt = MAX_ERROR_CNT ∧
          requestWrites st'.trace = requestWrites st.trace + k)) := by
  induction fuel with
  | zero =>
    intro st hw _ hf
    simp only [MAX_ERROR_CNT] at hw hf
    omega
  | succ fuel ih =>
    intro st hw hc hf
    simp only [MAX_ERROR_CNT] at hw hf
    by_cases h4 : (bus st.trace.length).status = 4
    · refine ⟨4, { st with trace := st.trace ++ [BusOp.write CO2_request] }, 0,
        CO2_write_loop_ok bus fuel st h4, rfl, rfl, rfl, rfl, rfl, ?_, Or.inl ⟨rfl, ?_, ?_⟩⟩
      · simp
      · simpa [MAX_ERROR_CNT] using hw
      · simp only [requestWrites_append_request]
    · have hw1 : (st.write_error_cnt + 1) % 256 = st.write_error_cnt + 1 := by omega
      have hc1 : (st.checksum_error_cnt + 1) % 256 = st.checksum_error_cnt + 1 := by omega
      rw [CO2_write_loop_fail bus fuel st h4, hw1, hc1]
      by_cases hlt : st.write_error_cnt + 1 < MAX_ERROR_CNT
      · rw [if_pos hlt]
        simp only [MAX_ERROR_CNT] at hlt
        obtain ⟨sw, st', k, hrun, h1, h2, h3, h5, h6, h7, h8⟩ := ih
          { st with
            trace := st.trace ++ [BusOp.write CO2_request]
            write_error_cnt := st.write_error_cnt + 1
            checksum_error_cnt := st.checksum_error_cnt + 1 }
          (by simp only [MAX_ERROR_CNT]; omega) (by simp only []; omega)
          (by simp only [MAX_ERROR_CNT]; omega)
        simp only [requestWrites_append_request, List.length_append,
          List.length_singleton] at h1 h2 h3 h5 h6 h7 h8
        refine ⟨sw, st', k + 1, hrun, h1, h2, h3, by omega, by omega, by omega, ?_⟩
        rcases h8 with ⟨e1, e2, e3⟩ | ⟨e1, e2, e3⟩
        · exact Or.inl ⟨e1, e2, by omega⟩
        · exact Or.inr ⟨e1, e2, by omega⟩
      · rw [if_neg hlt]
        simp only [MAX_ERROR_CNT] at hlt
        refine ⟨_, _, 1, rfl, rfl, rfl, rfl, rfl, rfl, by simp, Or.inr ⟨h4, ?_, ?_⟩⟩
        · simp only [MAX_ERROR_CNT]; omega
        · simp only [requestWrites_append_request]

/-- The read loop of `CO2`, entered with both counters below `MAX_ERROR_CNT`
and enough fuel, ends in one of three ways: `return 2` with
`write_error_cnt` at the maximum, exit with a failed read and
`read_error_cnt` at the maximum, or exit with a complete read and both
counters below the maximum.  The request writes made are the failed writes
(counted in `checksum_error_cnt`), the writes followed by a failed read
(counted in `read_error_cnt`) and, in the third case, one more. -/
theorem CO2_read_loop_spec (bus : Bus) (fuel : Nat) : ∀ (st : CO2State),
    st.write_error_cnt < MAX_ERROR_CNT → st.read_error_cnt < MAX_ERROR_CNT →
    st.checksum_error_cnt ≤ st.write_error_cnt + 100 →
    MAX_ERROR_CNT - st.read_error_cnt ≤ fuel →
    ∃ (res : Ctl (Int × CO2State)) (st' : CO2State),
      CO2_read_loop bus fuel st = some res ∧
      st'.co2 = st.co2 ∧ st'.success = st.success ∧
      st.write_error_cnt ≤ st'.write_error_cnt ∧ st.read_error_cnt ≤ st'.read_error_cnt ∧
      st'.checksum_error_cnt + st.write_error_cnt =
        st.checksum_error_cnt + st'.write_error_cnt ∧
      st.trace.length < st'.trace.length ∧
      ((∃ sw, res = Ctl.returned 2 (sw, st') ∧ st'.write_error_cnt = MAX_ERROR_CNT ∧
          st'.read_error_cnt < MAX_ERROR_CNT ∧
          requestWrites st'.trace + st.read_error_cnt + st.checksum_error_cnt =
            requestWrites st.trace + st'.read_error_cnt + st'.checksum_error_cnt) ∨
        (∃ sr, res = Ctl.done (sr, st') ∧ sr ≠ 4 ∧ st'.read_error_cnt = MAX_ERROR_CNT ∧
          st'.write_error_cnt < MAX_ERROR_CNT ∧
          requestWrites st'.trace + st.read_error_cnt + st.checksum_error_cnt =
            requestWrites st.trace + st'.read_error_cnt + st'.checksum_error_cnt) ∨
        (res = Ctl.done (4, st') ∧ st'.write_error_cnt < MAX_ERROR_CNT ∧
          st'.read_error_cnt < MAX_ERROR_CNT ∧
          requestWrites st'.trace + st.read_error_cnt + st.checksum_error_cnt =
            requestWrites st.trace + st'.read_error_cnt + st'.checksum_error_cnt + 1)) := by
  induction fuel with
  | zero =>
    intro st _ hr _ hf
    simp only [MAX_ERROR_CNT] at hr hf
    omega
  | succ fuel ih =>
    intro st hw hr hc hf
    obtain ⟨sw, st1, k, hrun, h1, h2, h3, h5, h6, h7, h8⟩ :=
      CO2_write_loop_spec bus loopFuel st hw hc
        (by simp only [MAX_ERROR_CNT, loopFuel]; omega)
    simp only [MAX_ERROR_CNT] at hw hr hf h8
    rw [CO2_read_loop, hrun]
    simp only
    rcases h8 with ⟨e1, e2, e3⟩ | ⟨e1, e2, e3⟩
    · -- the request was written
      rw [if_neg (by simpa using e1)]
      by_cases h4 : (bus st1.trace.length).status = 4
      · rw [if_neg (by simpa using h4)]
        refine ⟨_, { st1 with
            trace := st1.trace ++ [BusOp.read 4]
            buffer_read := fillBuffer 4 (bus st1.trace.length).data }, by rw [h4], h1, h2,
          by simp only []; omega, by simp only []; omega, by simp only []; omega,
          by simp only [List.length_append, List.length_singleton]; omega,
          Or.inr (Or.inr ⟨rfl, ?_, ?_, ?_⟩)⟩
        · simp only [MAX_ERROR_CNT]; omega
        · simp only [MAX_ERROR_CNT]; omega
        · simp only [requestWrites_append_read]; omega
      · rw [if_pos h4]
        have hr1 : (st1.read_error_cnt + 1) % 256 = st1.read_error_cnt + 1 := by omega
        simp only [hr1]
        by_cases hlt : st1.read_error_cnt + 1 < MAX_ERROR_CNT
        · rw [if_pos hlt]
          simp only [MAX_ERROR_CNT] at hlt
          obtain ⟨res, st', hrun', g1, g2, g3, g4, g5, g6, g7⟩ := ih
            { st1 with
              trace := st1.trace ++ [BusOp.read 4]
              read_error_cnt := st1.read_error_cnt + 1 }
            (by simp only [MAX_ERROR_CNT]; omega) (by simp only [MAX_ERROR_CNT]; omega)
            (by simp only []; omega) (by simp only [MAX_ERROR_CNT]; omega)
          simp only [requestWrites_append_read, List.length_append,
            List.length_singleton] at g1 g2 g3 g4 g5 g6 g7
          refine ⟨res, st', hrun', g1.trans h1, g2.trans h2, by omega, by omega, by omega,
            by omega, ?_⟩
          rcases g7 with ⟨sw', f1, f2, f3, f4⟩ | ⟨sr', f1, f2, f3, f4, f5⟩ | ⟨f1, f2, f3, f4⟩
          · exact Or.inl ⟨sw', f1, f2, f3, by omega⟩
          · exact Or.inr (Or.inl ⟨sr', f1, f2, f3, f4, by omega⟩)
          · exact Or.inr (Or.inr ⟨f1, f2, f3, by omega⟩)
        · rw [if_neg hlt]
          simp only [MAX_ERROR_CNT] at hlt
          refine ⟨_, { st1 with
              trace := st1.trace ++ [BusOp.read 4]
              read_error_cnt := st1.read_error_cnt + 1 }, rfl, h1, h2,
            by simp only []; omega, by simp only []; omega, by simp only []; omega,
            by simp only [List.length_append, List.length_singleton]; omega,
            Or.inr (Or.inl ⟨_, rfl, h4, ?_, ?_, ?_⟩)⟩
          · simp only [MAX_ERROR_CNT]; omega
          · simp only [MAX_ERROR_CNT]; omega
          · simp only [requestWrites_append_read]; omega
    · -- the write loop gave up
      rw [if_pos (by simpa using e1)]
      refine ⟨_, st1, rfl, h1, h2, by omega, by omega, by omega, h7,
        Or.inl ⟨sw, rfl, ?_, ?_, ?_⟩⟩
      · simp only [MAX_ERROR_CNT]; omega
      · simp only [MAX_ERROR_CNT]; omega
      · omega

/-- One pass through the outer loop body of `CO2`, entered with the write and
read counters below `MAX_ERROR_CNT`, ends in one of four ways: `return 1`
(address selection failed, nothing else done), `return 2` (a counter reached
the maximum), a response accepted (`success` set, value stored) or a response
rejected (`checksum_error_cnt` incremented, nothing stored). -/
theorem CO2_body_spec (bus : Bus) (st : CO2State)
    (hw : st.write_error_cnt < MAX_ERROR_CNT) (hr : st.read_error_cnt < MAX_ERROR_CNT)
    (hc : st.checksum_error_cnt ≤ st.write_error_cnt + 99) :
    ∃ (res : Ctl CO2State) (st' : CO2State),
      CO2_body bus st = some res ∧ st.trace.length < st'.trace.length ∧
      st.write_error_cnt ≤ st'.write_error_cnt ∧ st.read_error_cnt ≤ st'.read_error_cnt ∧
      ((res = Ctl.returned 1 st' ∧ st'.co2 = st.co2 ∧ st'.success = st.success ∧
          st'.write_error_cnt = st.write_error_cnt ∧ st'.read_error_cnt = st.read_error_cnt ∧
          st'.checksum_error_cnt = st.checksum_error_cnt ∧
          requestWrites st'.trace = requestWrites st.trace) ∨
        (res = Ctl.returned 2 st' ∧ st'.co2 = st.co2 ∧ st'.success = st.success ∧
          ((st'.write_error_cnt = MAX_ERROR_CNT ∧ st'.read_error_cnt < MAX_ERROR_CNT) ∨
            (st'.read_error_cnt = MAX_ERROR_CNT ∧ st'.write_error_cnt < MAX_ERROR_CNT)) ∧
          st'.checksum_error_cnt + st.write_error_cnt =
            st.checksum_error_cnt + st'.write_error_cnt ∧
          requestWrites st'.trace + st.read_error_cnt + st.checksum_error_cnt =
            requestWrites st.trace + st'.read_error_cnt + st'.checksum_error_cnt) ∨
        (res = Ctl.done st' ∧ st'.success = 1 ∧
          st'.write_error_cnt < MAX_ERROR_CNT ∧ st'.read_error_cnt < MAX_ERROR_CNT ∧
          st'.checksum_error_cnt + st.write_error_cnt =
            st.checksum_error_cnt + st'.write_error_cnt ∧
          requestWrites st'.trace + st.read_error_cnt + st.checksum_error_cnt =
            requestWrites st.trace + st'.read_error_cnt + st'.checksum_error_cnt + 1) ∨
        (res = Ctl.done st' ∧ st'.co2 = st.co2 ∧ st'.success = st.success ∧
          st'.write_error_cnt < MAX_ERROR_CNT ∧ st'.read_error_cnt < MAX_ERROR_CNT ∧
          st'.checksum_error_cnt + st.write_error_cnt =
            st.checksum_error_cnt + st'.write_error_cnt + 1 ∧
          requestWrites st'.trace + st.read_error_cnt + st.checksum_error_cnt =
            requestWrites st.trace + st'.read_error_cnt + st'.checksum_error_cnt)) := by
  unfold CO2_body
  simp only
  by_cases h0 : (bus st.trace.length).status < 0
  · rw [if_pos h0]
    exact ⟨_, { st with trace := st.trace ++ [BusOp.ioctl 0x00] }, rfl, by simp,
      le_refl _, le_refl _,
      Or.inl ⟨rfl, rfl, rfl, rfl, rfl, rfl, (requestWrites_append_wakeup st.trace).1⟩⟩
  · rw [if_neg h0]
    by_cases h2 : (bus (st.trace ++ [BusOp.ioctl 0x00] ++ [BusOp.write [0x22]]).length).status < 0
    · rw [if_pos h2]
      refine ⟨_, { st with
          trace := st.trace ++ [BusOp.ioctl 0x00] ++ [BusOp.write [0x22]] ++
            [BusOp.ioctl 0x68] }, rfl, by simp, le_refl _, le_refl _,
        Or.inl ⟨rfl, rfl, rfl, rfl, rfl, rfl, (requestWrites_append_wakeup st.trace).2⟩⟩
    · rw [if_neg h2]
      obtain ⟨res, st1, hrun, g1, g2, g3, g4, g5, g6, g7⟩ := CO2_read_loop_spec bus loopFuel
        { st with
          trace := st.trace ++ [BusOp.ioctl 0x00] ++ [BusOp.write [0x22]] ++
            [BusOp.ioctl 0x68] } hw hr (by simp only []; omega)
        (by simp only [MAX_ERROR_CNT, loopFuel]; omega)
      simp only [(requestWrites_append_wakeup st.trace).2, List.length_append,
        List.length_singleton] at g1 g2 g3 g4 g5 g6 g7
      simp only [MAX_ERROR_CNT] at hw hr g7 ⊢
      rw [hrun]
      rcases g7 with ⟨sw, f1, f2, f3, f4⟩ | ⟨sr, f1, f2, f3, f4, f5⟩ | ⟨f1, f2, f3, f4⟩
      · rw [f1]
        exact ⟨_, st1, rfl, by omega, g3, g4, Or.inr (Or.inl ⟨rfl, g1, g2,
          Or.inl ⟨f2, f3⟩, g5, f4⟩)⟩
      · rw [f1]
        simp only
        rw [if_pos f2]
        exact ⟨_, st1, rfl, by omega, g3, g4, Or.inr (Or.inl ⟨rfl, g1, g2,
          Or.inr ⟨f3, f4⟩, g5, f5⟩)⟩
      · rw [f1]
        simp only [ne_eq, not_true_eq_false, if_false]
        by_cases hacc : CO2_accepts st1.buffer_read = true
        · rw [if_pos hacc]
          exact ⟨_, { st1 with
              co2 := ((byteAt st1.buffer_read 1 <<< 8) + byteAt st1.buffer_read 2 : Nat)
              success := 1 }, rfl, by simp only []; omega, g3, g4,
            Or.inr (Or.inr (Or.inl ⟨rfl, rfl, f2, f3, g5, f4⟩))⟩
        · rw [if_neg hacc]
          have hc1 : (st1.checksum_error_cnt + 1) % 256 = st1.checksum_error_cnt + 1 := by
            omega
          rw [hc1]
          exact ⟨_, { st1 with checksum_error_cnt := st1.checksum_error_cnt + 1 }, rfl,
            by simp only []; omega, g3, g4,
            Or.inr (Or.inr (Or.inr ⟨rfl, g1, g2, f2, f3, by simp only []; omega,
              by simp only []; omega⟩))⟩

/-- The outer loop of `CO2`, entered at its head (counters below
`MAX_ERROR_CNT`, nothing accepted yet) with enough fuel, ends with return
value 0, 1 or 2.  The counters never pass the stated bounds (so the `uint8_t`
counters do not wrap), the request writes made are counted by
`read_error_cnt + checksum_error_cnt + success`, and `*co2` is only written
when the value 0 is returned. -/
theorem CO2_loop_spec (bus : Bus) (fuel : Nat) : ∀ (st : CO2State),
    st.write_error_cnt < MAX_ERROR_CNT → st.read_error_cnt < MAX_ERROR_CNT →
    st.write_error_cnt ≤ st.checksum_error_cnt → st.checksum_error_cnt < MAX_ERROR_CNT →
    st.success = 0 → MAX_ERROR_CNT - st.checksum_error_cnt ≤ fuel →
    ∃ (code : Int) (st' : CO2State),
      CO2_loop bus fuel st = some (code, st') ∧
      st.trace.length < st'.trace.length ∧
      st'.write_error_cnt ≤ MAX_ERROR_CNT ∧ st'.read_error_cnt ≤ MAX_ERROR_CNT ∧
      st'.write_error_cnt ≤ st'.checksum_error_cnt ∧
      st'.checksum_error_cnt ≤ st'.write_error_cnt + MAX_ERROR_CNT ∧
      requestWrites st'.trace + st.read_error_cnt + st.checksum_error_cnt =
        requestWrites st.trace + st'.read_error_cnt + st'.checksum_error_cnt + st'.success ∧
      ((code = 0 ∧ st'.success = 1 ∧ st'.write_error_cnt < MAX_ERROR_CNT ∧
          st'.read_error_cnt < MAX_ERROR_CNT ∧
          st'.checksum_error_cnt < st'.write_error_cnt + MAX_ERROR_CNT) ∨
        (code = 1 ∧ st'.co2 = st.co2 ∧ st'.success = 0 ∧
          st'.write_error_cnt < MAX_ERROR_CNT ∧ st'.read_error_cnt < MAX_ERROR_CNT ∧
          st'.checksum_error_cnt < MAX_ERROR_CNT) ∨
        (code = 2 ∧ st'.co2 = st.co2 ∧ st'.success = 0 ∧
          (st'.write_error_cnt = MAX_ERROR_CNT ∨ st'.read_error_cnt = MAX_ERROR_CNT ∨
            MAX_ERROR_CNT ≤ st'.checksum_error_cnt))) := by
  induction fuel with
  | zero =>
    intro st _ _ _ hc _ hf
    simp only [MAX_ERROR_CNT] at hc hf
    omega
  | succ fuel ih =>
    intro st hw hr hwc hc hs hf
    obtain ⟨res, st1, hrun, g1, g2, g3, g4⟩ := CO2_body_spec bus st hw hr
      (by simp only [MAX_ERROR_CNT] at hc; omega)
    rw [CO2_loop, hrun]
    simp only [MAX_ERROR_CNT] at hw hr hc hf g4 ih ⊢
    rcases g4 with ⟨f0, f1, f2, f3, f4, f5, f6⟩ | ⟨f0, f1, f2, f3, f4, f5⟩ |
      ⟨f0, f1, f2, f3, f4, f5⟩ | ⟨f0, f1, f2, f3, f4, f5, f6⟩
    · rw [f0]
      refine ⟨1, st1, rfl, g1, by omega, by omega, by omega, by omega, by omega,
        Or.inr (Or.inl ⟨rfl, f1, by omega, by omega, by omega, by omega⟩)⟩
    · rw [f0]
      refine ⟨2, st1, rfl, g1, by omega, by omega, by omega, by omega, by omega,
        Or.inr (Or.inr ⟨rfl, f1, by omega, by omega⟩)⟩
    · rw [f0]
      simp only
      rw [if_neg (by omega), if_neg (by omega)]
      refine ⟨0, st1, rfl, g1, by omega, by omega, by omega, by omega, by omega,
        Or.inl ⟨rfl, f1, f2, f3, by omega⟩⟩
    · rw [f0]
      simp only
      by_cases hlt : st1.checksum_error_cnt < 50
      · rw [if_pos ⟨by omega, hlt⟩]
        obtain ⟨code, st', hrun', k1, k2, k3, k4, k5, k6, k7⟩ := ih st1 f3 f4 (by omega) hlt
          (by omega) (by omega)
        refine ⟨code, st', hrun', by omega, k2, k3, k4, k5, by omega, ?_⟩
        rcases k7 with ⟨e1, e2⟩ | ⟨e1, e2, e3⟩ | ⟨e1, e2, e3⟩
        · exact Or.inl ⟨e1, e2⟩
        · exact Or.inr (Or.inl ⟨e1, e2.trans f1, e3⟩)
        · exact Or.inr (Or.inr ⟨e1, e2.trans f1, e3⟩)
      · rw [if_neg (by omega), if_pos (by omega)]
        refine ⟨2, st1, rfl, g1, by omega, by omega, by omega, by omega, by omega,
          Or.inr (Or.inr ⟨rfl, f1, by omega, by omega⟩)⟩

/-- Every call of `CO2` returns: for every bus the model yields a return value
in {0, 1, 2} with a final state, within the fuel granted.  The final counters,
request writes and output obey the bounds of `CO2_loop_spec`. -/
theorem CO2_returns (bus : Bus) (co2 : Int) :
    ∃ (code : Int) (st : CO2State),
      CO2 bus co2 = some (code, st) ∧
      st.write_error_cnt ≤ MAX_ERROR_CNT ∧ st.read_error_cnt ≤ MAX_ERROR_CNT ∧
      st.write_error_cnt ≤ st.checksum_error_cnt ∧
      st.checksum_error_cnt ≤ st.write_error_cnt + MAX_ERROR_CNT ∧
      requestWrites st.trace = st.read_error_cnt + st.checksum_error_cnt + st.success ∧
      ((code = 0 ∧ st.success = 1 ∧ st.write_error_cnt < MAX_ERROR_CNT ∧
          st.read_error_cnt < MAX_ERROR_CNT ∧
          st.checksum_error_cnt < st.write_error_cnt + MAX_ERROR_CNT) ∨
        (code = 1 ∧ st.co2 = co2 ∧ st.success = 0 ∧
          st.write_error_cnt < MAX_ERROR_CNT ∧ st.read_error_cnt < MAX_ERROR_CNT ∧
          st.checksum_error_cnt < MAX_ERROR_CNT) ∨
        (code = 2 ∧ st.co2 = co2 ∧ st.success = 0 ∧
          (st.write_error_cnt = MAX_ERROR_CNT ∨ st.read_error_cnt = MAX_ERROR_CNT ∨
            MAX_ERROR_CNT ≤ st.checksum_error_cnt))) := by
  obtain ⟨code, st, hrun, -, h2, h3, h4, h5, h6, h7⟩ := CO2_loop_spec bus loopFuel
    (CO2_init co2) (by simp [CO2_init, MAX_ERROR_CNT]) (by simp [CO2_init, MAX_ERROR_CNT])
    (by simp [CO2_init]) (by simp [CO2_init, MAX_ERROR_CNT]) rfl
    (by simp [CO2_init, MAX_ERROR_CNT, loopFuel])
  refine ⟨code, st, hrun, h2, h3, h4, h5, ?_, h7⟩
  have h0 : requestWrites (CO2_init co2).trace = 0 := rfl
  have hr0 : (CO2_init co2).read_error_cnt = 0 := rfl
  have hc0 : (CO2_init co2).checksum_error_cnt = 0 := rfl
  rw [h0, hr0, hc0] at h6
  omega

/-! ## Theorems: failure behaviour of the CO2 driver -/

/-- C11: every call of `CO2` returns 0, 1 or 2, and whenever it returns a
failure (non-zero: retries exhausted or address selection failed) the output
variable co2 holds exactly the value it held before the call, for every bus
(every sequence of transport results and response bytes). -/
theorem C11_CO2_failure_keeps_co2 (bus : Bus) (co2 : Int) :
    ∃ (code : Int) (st : CO2State),
      CO2 bus co2 = some (code, st) ∧ (code = 0 ∨ code = 1 ∨ code = 2) ∧
      (code ≠ 0 → st.co2 = co2) := by
  obtain ⟨code, st, hrun, -, -, -, -, -, h⟩ := CO2_returns bus co2
  refine ⟨code, st, hrun, ?_, ?_⟩
  · rcases h with ⟨e, -⟩ | ⟨e, -⟩ | ⟨e, -⟩
    · exact Or.inl e
    · exact Or.inr (Or.inl e)
    · exact Or.inr (Or.inr e)
  · intro hne
    rcases h with ⟨e, -⟩ | ⟨-, e, -⟩ | ⟨-, e, -⟩
    · exact absurd e hne
    · exact e
    · exact e

set_option maxRecDepth 1000000 in
/-- C13, as stated, fails: in the run with 49 failed reads followed by 49
rejected responses and then a valid response, 98 attempts fail, more than
`MAX_ERROR_CNT`, and `CO2` still returns 0 with co2 = 1000: the failed reads
and the rejected responses are counted in different counters.  The tuple is
(return value, co2, write_error_cnt, read_error_cnt, checksum_error_cnt). -/
theorem C13_counterexample :
    (CO2 (scriptBus separateBudgetsScript) 0).map
        (fun p => (p.1, p.2.co2, p.2.write_error_cnt, p.2.read_error_cnt,
          p.2.checksum_error_cnt)) =
      some (0, 1000, 0, 49, 49) ∧
    MAX_ERROR_CNT < 0 + 49 + 49 :=
  ⟨rfl, by decide⟩

/-- C13, amended: in every call of `CO2` the failure classes have separate
counters.  The call returns with at most `MAX_ERROR_CNT` failed writes and at
most `MAX_ERROR_CNT` failed reads; `checksum_error_cnt` counts the rejected
responses together with the failed writes and exceeds `write_error_cnt` by at
most `MAX_ERROR_CNT`.  The call returns 2 exactly when nothing was accepted
and `write_error_cnt` or `read_error_cnt` has reached `MAX_ERROR_CNT` or
`checksum_error_cnt` is at least `MAX_ERROR_CNT`; when it returns 0 each of
the three classes stayed below `MAX_ERROR_CNT` (their total may exceed
it). -/
theorem C13_separate_budgets (bus : Bus) (co2 : Int) :
    ∃ (code : Int) (st : CO2State),
      CO2 bus co2 = some (code, st) ∧
      st.write_error_cnt ≤ MAX_ERROR_CNT ∧ st.read_error_cnt ≤ MAX_ERROR_CNT ∧
      st.write_error_cnt ≤ st.checksum_error_cnt ∧
      st.checksum_error_cnt - st.write_error_cnt ≤ MAX_ERROR_CNT ∧
      (code = 2 ↔ st.success = 0 ∧
        (st.write_error_cnt = MAX_ERROR_CNT ∨ st.read_error_cnt = MAX_ERROR_CNT ∨
          MAX_ERROR_CNT ≤ st.checksum_error_cnt)) ∧
      (code = 0 → st.write_error_cnt < MAX_ERROR_CNT ∧ st.read_error_cnt < MAX_ERROR_CNT ∧
        st.checksum_error_cnt - st.write_error_cnt < MAX_ERROR_CNT) := by
  obtain ⟨code, st, hrun, h1, h2, h3, h4, -, h⟩ := CO2_returns bus co2
  simp only [MAX_ERROR_CNT] at h1 h2 h4 h ⊢
  refine ⟨code, st, hrun, h1, h2, h3, by omega, ?_, ?_⟩
  · rcases h with ⟨e, f1, f2, f3, f4⟩ | ⟨e, -, f1, f2, f3, f4⟩ | ⟨e, -, f1, f2⟩
    · constructor
      · intro h2; rw [e] at h2; exact absurd h2 (by decide)
      · rintro ⟨hs, -⟩; omega
    · constructor
      · intro h2; rw [e] at h2; exact absurd h2 (by decide)
      · rintro ⟨-, hh⟩; omega
    · exact ⟨fun _ => ⟨f1, f2⟩, fun _ => e⟩
  · intro h0
    rcases h with ⟨-, -, f2, f3, f4⟩ | ⟨e, -⟩ | ⟨e, -⟩
    · exact ⟨f2, f3, by omega⟩
    · rw [e] at h0; exact absurd h0 (by decide)
    · rw [e] at h0; exact absurd h0 (by decide)

/-! ## Theorems: the loops of the Si7021 driver -/

/-- One pass of a write loop of `si7021` whose write fails. -/
theorem si7021_write_loop_fail (bus : Bus) (command fuel : Nat) (st : SiState)
    (h : (bus st.trace.length).status ≠ 1) :
    si7021_write_loop bus command (fuel + 1) st =
      if (st.write_error_cnt + 1) % 256 < MAX_ERROR_CNT then
        si7021_write_loop bus command fuel { st with
          trace := st.trace ++ [BusOp.write [command]]
          write_error_cnt := (st.write_error_cnt + 1) % 256 }
      else
        some ((bus st.trace.length).status, { st with
          trace := st.trace ++ [BusOp.write [command]]
          write_error_cnt := (st.write_error_cnt + 1) % 256 }) := by
  simp [si7021_write_loop, h]

/-- One pass of a read loop of `si7021` whose read fails. -/
theorem si7021_read_loop_fail (bus : Bus) (n fuel : Nat) (st : SiState)
    (h : (bus st.trace.length).status ≠ n) :
    si7021_read_loop bus n (fuel + 1) st =
      if (st.read_error_cnt + 1) % 256 < MAX_ERROR_CNT then
        si7021_read_loop bus n fuel { st with
          trace := st.trace ++ [BusOp.read n]
          read_error_cnt := (st.read_error_cnt + 1) % 256 }
      else
        some ((bus st.trace.length).status, { st with
          trace := st.trace ++ [BusOp.read n]
          read_error_cnt := (st.read_error_cnt + 1) % 256 }) := by
  simp [si7021_read_loop, h]

/-- A write loop of `si7021`, entered with `write_error_cnt` below
`MAX_ERROR_CNT` and enough fuel, ends after `k` failed writes: either the
command is written, or the counter has reached the maximum. -/
theorem si7021_write_loop_spec (bus : Bus) (command fuel : Nat) : ∀ (st : SiState),
    st.write_error_cnt < MAX_ERROR_CNT → MAX_ERROR_CNT - st.write_error_cnt ≤ fuel →
    ∃ (status_write : Int) (st' : SiState) (k : Nat),
      si7021_write_loop bus command fuel st = some (status_write, st') ∧
      st'.read_error_cnt = st.read_error_cnt ∧
      st'.checksum_error_cnt = st.checksum_error_cnt ∧
      st'.write_error_cnt = st.write_error_cnt + k ∧
      ((status_write = 1 ∧ st'.write_error_cnt < MAX_ERROR_CNT ∧
          st'.trace.length = st.trace.length + k + 1) ∨
        (status_write ≠ 1 ∧ st'.write_error_cnt = MAX_ERROR_CNT ∧
          st'.trace.length = st.trace.length + k)) := by
  induction fuel with
  | zero =>
    intro st hw hf
    simp only [MAX_ERROR_CNT] at hw hf
    omega
  | succ fuel ih =>
    intro st hw hf
    simp only [MAX_ERROR_CNT] at hw hf
    by_cases h1 : (bus st.trace.length).status = 1
    · refine ⟨1, { st with trace := st.trace ++ [BusOp.write [command]] }, 0,
        si7021_write_loop_ok bus command fuel st h1, rfl, rfl, rfl, Or.inl ⟨rfl, ?_, ?_⟩⟩
      · simpa [MAX_ERROR_CNT] using hw
      · simp
    · have hw1 : (st.write_error_cnt + 1) % 256 = st.write_error_cnt + 1 := by omega
      rw [si7021_write_loop_fail bus command fuel st h1, hw1]
      by_cases hlt : st.write_error_cnt + 1 < MAX_ERROR_CNT
      · rw [if_pos hlt]
        simp only [MAX_ERROR_CNT] at hlt
        obtain ⟨sw, st', k, hrun, g1, g2, g3, g4⟩ := ih
          { st with
            trace := st.trace ++ [BusOp.write [command]]
            write_error_cnt := st.write_error_cnt + 1 }
          (by simp only [MAX_ERROR_CNT]; omega) (by simp only [MAX_ERROR_CNT]; omega)
        simp only [List.length_append, List.length_singleton] at g1 g2 g3 g4
        refine ⟨sw, st', k + 1, hrun, g1, g2, by omega, ?_⟩
        rcases g4 with ⟨e1, e2, e3⟩ | ⟨e1, e2, e3⟩
        · exact Or.inl ⟨e1, e2, by omega⟩
        · exact Or.inr ⟨e1, e2, by omega⟩
      · rw [if_neg hlt]
        simp only [MAX_ERROR_CNT] at hlt
        refine ⟨_, _, 1, rfl, rfl, rfl, rfl, Or.inr ⟨h1, ?_, ?_⟩⟩
        · simp only [MAX_ERROR_CNT]; omega
        · simp

/-- A read loop of `si7021`, entered with `read_error_cnt` below
`MAX_ERROR_CNT` and enough fuel, ends after `k` failed reads: either all
bytes arrive, or the counter has reached the maximum. -/
theorem si7021_read_loop_spec (bus : Bus) (n fuel : Nat) : ∀ (st : SiState),
    st.read_error_cnt < MAX_ERROR_CNT → MAX_ERROR_CNT - st.read_error_cnt ≤ fuel →
    ∃ (status_read : Int) (st' : SiState) (k : Nat),
      si7021_read_loop bus n fuel st = some (status_read, st') ∧
      st'.write_error_cnt = st.write_error_cnt ∧
      st'.checksum_error_cnt = st.checksum_error_cnt ∧
      st'.read_error_cnt = st.read_error_cnt + k ∧
      ((status_read = n ∧ st'.read_error_cnt < MAX_ERROR_CNT ∧
          st'.trace.length = st.trace.length + k + 1) ∨
        (status_read ≠ n ∧ st'.read_error_cnt = MAX_ERROR_CNT ∧
          st'.trace.length = st.trace.length + k)) := by
  induction fuel with
  | zero =>
    intro st hr hf
    simp only [MAX_ERROR_CNT] at hr hf
    omega
  | succ fuel ih =>
    intro st hr hf
    simp only [MAX_ERROR_CNT] at hr hf
    by_cases h1 : (bus st.trace.length).status = n
    · refine ⟨n, _, 0, si7021_read_loop_ok bus n fuel st h1, rfl, rfl, rfl,
        Or.inl ⟨rfl, ?_, ?_⟩⟩
      · simpa [MAX_ERROR_CNT] using hr
      · simp
    · have hr1 : (st.read_error_cnt + 1) % 256 = st.read_error_cnt + 1 := by omega
      rw [si7021_read_loop_fail bus n fuel st h1, hr1]
      by_cases hlt : st.read_error_cnt + 1 < MAX_ERROR_CNT
      · rw [if_pos hlt]
        simp only [MAX_ERROR_CNT] at hlt
        obtain ⟨sr, st', k, hrun, g1, g2, g3, g4⟩ := ih
          { st with
            trace := st.trace ++ [BusOp.read n]
            read_error_cnt := st.read_error_cnt + 1 }
          (by simp only [MAX_ERROR_CNT]; omega) (by simp only [MAX_ERROR_CNT]; omega)
        simp only [List.length_append, List.length_singleton] at g1 g2 g3 g4
        refine ⟨sr, st', k + 1, hrun, g1, g2, by omega, ?_⟩
        rcases g4 with ⟨e1, e2, e3⟩ | ⟨e1, e2, e3⟩
        · exact Or.inl ⟨e1, e2, by omega⟩
        · exact Or.inr ⟨e1, e2, by omega⟩
      · rw [if_neg hlt]
        simp only [MAX_ERROR_CNT] at hlt
        refine ⟨_, _, 1, rfl, rfl, rfl, rfl, Or.inr ⟨h1, ?_, ?_⟩⟩
        · simp only [MAX_ERROR_CNT]; omega
        · simp

/-- One pass through the humidity loop body of `si7021`, entered with the
write and read counters below `MAX_ERROR_CNT`, ends by `return 2` (a counter
reached the maximum), with the response accepted (`success` set) or with the
response rejected (`checksum_error_cnt` incremented).  The system calls made
are the failed writes and reads and at most one written command and one
complete read. -/
theorem si7021_rh_body_spec (bus : Bus) (st : SiState)
    (hw : st.write_error_cnt < MAX_ERROR_CNT) (hr : st.read_error_cnt < MAX_ERROR_CNT)
    (hc : st.checksum_error_cnt < MAX_ERROR_CNT) :
    ∃ (res : Ctl SiState) (st' : SiState),
      si7021_rh_body bus st = some res ∧
      st.write_error_cnt ≤ st'.write_error_cnt ∧ st.read_error_cnt ≤ st'.read_error_cnt ∧
      st'.trace.length + st.write_error_cnt + st.read_error_cnt ≤
        st.trace.length + st'.write_error_cnt + st'.read_error_cnt + 2 ∧
      ((res = Ctl.returned 2 st' ∧ st'.write_error_cnt ≤ MAX_ERROR_CNT ∧
          st'.read_error_cnt ≤ MAX_ERROR_CNT ∧
          st'.checksum_error_cnt = st.checksum_error_cnt) ∨
        (res = Ctl.done st' ∧ st'.success = 1 ∧ st'.write_error_cnt < MAX_ERROR_CNT ∧
          st'.read_error_cnt < MAX_ERROR_CNT ∧
          st'.checksum_error_cnt = st.checksum_error_cnt) ∨
        (res = Ctl.done st' ∧ st'.success = st.success ∧
          st'.write_error_cnt < MAX_ERROR_CNT ∧ st'.read_error_cnt < MAX_ERROR_CNT ∧
          st'.checksum_error_cnt = st.checksum_error_cnt + 1)) := by
  obtain ⟨sw, st1, k, hrun, g1, g2, g3, g4⟩ := si7021_write_loop_spec bus 0xE5 loopFuel st hw
    (by simp only [MAX_ERROR_CNT, loopFuel]; omega)
  have hs1 := (si7021_write_loop_frame bus _ _ _ _ _ hrun).2.2
  unfold si7021_rh_body
  rw [hrun]
  simp only [MAX_ERROR_CNT] at hw hr hc g4 ⊢
  rcases g4 with ⟨e1, e2, e3⟩ | ⟨e1, e2, e3⟩
  · rw [if_neg (by simpa using e1)]
    obtain ⟨sr, st2, j, hrun2, k1, k2, k3, k4⟩ := si7021_read_loop_spec bus 3 loopFuel st1
      (by simp only [MAX_ERROR_CNT]; omega) (by simp only [MAX_ERROR_CNT, loopFuel]; omega)
    have hs2 := (si7021_read_loop_frame bus _ _ _ _ _ hrun2).2.2
    rw [hrun2]
    simp only [MAX_ERROR_CNT] at k4 ⊢
    rcases k4 with ⟨f1, f2, f3⟩ | ⟨f1, f2, f3⟩
    · rw [if_neg (by simpa using f1)]
      by_cases hcrc : crc8 (List.take 2 st2.buffer_read) = byteAt st2.buffer_read 2
      · rw [if_pos hcrc]
        exact ⟨_, { st2 with
            rh := CFloat.val (rh_stored (rawCode st2.buffer_read))
            success := 1 }, rfl, by simp only []; omega, by simp only []; omega,
          by simp only []; omega,
          Or.inr (Or.inl ⟨rfl, rfl, by simp only []; omega, by simp only []; omega,
            by simp only []; omega⟩)⟩
      · rw [if_neg hcrc]
        have hc1 : (st2.checksum_error_cnt + 1) % 256 = st2.checksum_error_cnt + 1 := by
          omega
        rw [hc1]
        exact ⟨_, { st2 with checksum_error_cnt := st2.checksum_error_cnt + 1 }, rfl,
          by simp only []; omega, by simp only []; omega, by simp only []; omega,
          Or.inr (Or.inr ⟨rfl, by simp only []; rw [hs2, hs1], by simp only []; omega,
            by simp only []; omega, by simp only []; omega⟩)⟩
    · rw [if_pos (by simpa using f1)]
      exact ⟨_, st2, rfl, by omega, by omega, by omega,
        Or.inl ⟨rfl, by omega, by omega, by omega⟩⟩
  · rw [if_pos e1]
    exact ⟨_, st1, rfl, by omega, by omega, by omega,
      Or.inl ⟨rfl, by omega, by omega, by omega⟩⟩

/-- The humidity loop of `si7021`, entered at its head with enough fuel,
ends: by `return 2` or by leaving the loop, with all three counters at most
`MAX_ERROR_CNT` and a number of system calls bounded by the counters. -/
theorem si7021_rh_loop_spec (bus : Bus) (fuel : Nat) : ∀ (st : SiState),
    st.write_error_cnt < MAX_ERROR_CNT → st.read_error_cnt < MAX_ERROR_CNT →
    st.checksum_error_cnt < MAX_ERROR_CNT → st.success = 0 →
    MAX_ERROR_CNT - st.checksum_error_cnt ≤ fuel →
    ∃ (res : Ctl SiState) (st' : SiState),
      si7021_rh_loop bus fuel st = some res ∧
      (res = Ctl.returned 2 st' ∨ res = Ctl.done st') ∧
      st'.write_error_cnt ≤ MAX_ERROR_CNT ∧ st'.read_error_cnt ≤ MAX_ERROR_CNT ∧
      st'.checksum_error_cnt ≤ MAX_ERROR_CNT ∧
      (st'.success = 1 → st'.checksum_error_cnt < MAX_ERROR_CNT) ∧
      st'.trace.length + st.write_error_cnt + st.read_error_cnt +
          2 * st.checksum_error_cnt ≤
        st.trace.length + st'.write_error_cnt + st'.read_error_cnt +
          2 * st'.checksum_error_cnt + 2 := by
  induction fuel with
  | zero =>
    intro st _ _ hc _ hf
    simp only [MAX_ERROR_CNT] at hc hf
    omega
  | succ fuel ih =>
    intro st hw hr hc hs hf
    obtain ⟨res, st1, hrun, g1, g2, g3, g4⟩ := si7021_rh_body_spec bus st hw hr hc
    rw [si7021_rh_loop, hrun]
    simp only [MAX_ERROR_CNT] at hw hr hc hf g4 ih ⊢
    rcases g4 with ⟨f0, f1, f2, f3⟩ | ⟨f0, f1, f2, f3, f4⟩ | ⟨f0, f1, f2, f3, f4⟩
    · rw [f0]
      have hs1 : st1.success = 0 := by
        have := si7021_rh_body_frame bus st _ hrun
        rw [f0] at this
        rcases this with ⟨st2, e, -, -, e3⟩ | ⟨st2, e, -⟩
        · simp only [Ctl.returned.injEq] at e
          rw [e.2, e3, hs]
        · exact absurd e (by simp)
      exact ⟨_, st1, rfl, Or.inl rfl, f1, f2, by omega, by omega, by omega⟩
    · rw [f0]
      simp only
      rw [if_neg (by omega)]
      exact ⟨_, st1, rfl, Or.inr rfl, by omega, by omega, by omega, by omega, by omega⟩
    · rw [f0]
      simp only
      by_cases hlt : st1.checksum_error_cnt < 50
      · rw [if_pos ⟨by omega, hlt⟩]
        obtain ⟨res', st', hrun', k0, k1, k2, k3, k4, k5⟩ := ih st1 f2 f3 hlt (by omega)
          (by omega)
        exact ⟨res', st', hrun', k0, k1, k2, k3, k4, by omega⟩
      · rw [if_neg (by omega)]
        exact ⟨_, st1, rfl, Or.inr rfl, by omega, by omega, by omega, by omega, by omega⟩

/-- The temperature part of `si7021` ends, returning 0 or 2, after at most
`2 * MAX_ERROR_CNT` system calls, with its counters at most
`MAX_ERROR_CNT`. -/
theorem si7021_temp_spec (bus : Bus) (st : SiState) :
    ∃ (code : Int) (st' : SiState),
      si7021_temp bus st = some (code, st') ∧ (code = 0 ∨ code = 2) ∧
      st'.write_error_cnt ≤ MAX_ERROR_CNT ∧ st'.read_error_cnt ≤ MAX_ERROR_CNT ∧
      st'.checksum_error_cnt = 0 ∧
      st'.trace.length ≤ st.trace.length + 2 * MAX_ERROR_CNT := by
  obtain ⟨sw, st1, k, hrun, g1, g2, g3, g4⟩ := si7021_write_loop_spec bus 0xE0 loopFuel
    { st with
      buffer_read := [0, 0, 0]
      write_error_cnt := 0
      read_error_cnt := 0
      checksum_error_cnt := 0 }
    (by simp [MAX_ERROR_CNT]) (by simp [MAX_ERROR_CNT, loopFuel])
  unfold si7021_temp
  simp only
  rw [hrun]
  simp only [MAX_ERROR_CNT] at g1 g2 g3 g4 ⊢
  rcases g4 with ⟨e1, e2, e3⟩ | ⟨e1, e2, e3⟩
  · rw [if_neg (by simpa using e1)]
    obtain ⟨sr, st2, j, hrun2, k1, k2, k3, k4⟩ := si7021_read_loop_spec bus 2 loopFuel st1
      (by simp only [MAX_ERROR_CNT]; omega) (by simp only [MAX_ERROR_CNT, loopFuel]; omega)
    rw [hrun2]
    simp only [MAX_ERROR_CNT] at k4 ⊢
    rcases k4 with ⟨f1, f2, f3⟩ | ⟨f1, f2, f3⟩
    · rw [if_neg (by simpa using f1)]
      exact ⟨0, { st2 with temp := CFloat.tempOfRaw (rawCode st2.buffer_read) }, rfl,
        Or.inl rfl, by simp only []; omega, by simp only []; omega,
        by simp only []; omega, by simp only []; omega⟩
    · rw [if_pos (by simpa using f1)]
      exact ⟨2, st2, rfl, Or.inr rfl, by omega, by omega, by omega, by omega⟩
  · rw [if_pos e1]
    exact ⟨2, st1, rfl, Or.inr rfl, by omega, by omega, by omega, by omega⟩

/-- Every call of `si7021` returns: for every bus the model yields a return
value in {0, 1, 2} with a final state, within the fuel granted, after at most
`6 * MAX_ERROR_CNT + 3` system calls and with every counter at most
`MAX_ERROR_CNT`. -/
theorem si7021_returns (bus : Bus) (temp rh : CFloat) :
    ∃ (code : Int) (st : SiState),
      si7021 bus temp rh = some (code, st) ∧ (code = 0 ∨ code = 1 ∨ code = 2) ∧
      st.write_error_cnt ≤ MAX_ERROR_CNT ∧ st.read_error_cnt ≤ MAX_ERROR_CNT ∧
      st.checksum_error_cnt ≤ MAX_ERROR_CNT ∧
      st.trace.length ≤ 6 * MAX_ERROR_CNT + 3 := by
  unfold si7021
  simp only
  by_cases h0 : (bus (si7021_init temp rh).trace.length).status < 0
  · rw [if_pos h0]
    exact ⟨1, _, rfl, Or.inr (Or.inl rfl), by simp [si7021_init], by simp [si7021_init],
      by simp [si7021_init], by simp [si7021_init, MAX_ERROR_CNT]⟩
  · rw [if_neg h0]
    obtain ⟨res, st1, hrun, g0, g1, g2, g3, g4, g5⟩ := si7021_rh_loop_spec bus loopFuel
      { si7021_init temp rh with
        trace := (si7021_init temp rh).trace ++ [BusOp.ioctl 0x40] }
      (by simp [si7021_init, MAX_ERROR_CNT]) (by simp [si7021_init, MAX_ERROR_CNT])
      (by simp [si7021_init, MAX_ERROR_CNT]) rfl (by simp [si7021_init, MAX_ERROR_CNT, loopFuel])
    rw [hrun]
    simp only [si7021_init, List.nil_append, List.length_singleton, MAX_ERROR_CNT]
      at g1 g2 g3 g4 g5 ⊢
    rcases g0 with rfl | rfl
    · exact ⟨2, st1, rfl, Or.inr (Or.inr rfl), g1, g2, g3, by omega⟩
    · simp only
      by_cases hs : st1.success = 0
      · rw [if_pos hs]
        exact ⟨2, st1, rfl, Or.inr (Or.inr rfl), g1, g2, g3, by omega⟩
      · rw [if_neg hs]
        obtain ⟨code, st2, hrun2, k0, k1, k2, k3, k4⟩ := si7021_temp_spec bus st1
        simp only [MAX_ERROR_CNT] at k1 k2 k4
        refine ⟨code, st2, hrun2, ?_, k1, k2, by omega, by omega⟩
        rcases k0 with e | e
        · exact Or.inl e
        · exact Or.inr (Or.inr e)

/-- C18: for every bus (address selections, writes and reads succeeding or
failing arbitrarily, with arbitrary response bytes) `CO2` and `si7021` both
return.  No `uint8_t` counter wraps: the final counters are at most
`MAX_ERROR_CNT` (`checksum_error_cnt` of `CO2` at most `2 * MAX_ERROR_CNT`),
and the request writes of `CO2` are exactly counted by
`read_error_cnt + checksum_error_cnt + success`.  `CO2` writes its request at
most `3 * MAX_ERROR_CNT` times per call and `si7021` makes at most
`6 * MAX_ERROR_CNT + 3` system calls. -/
theorem C18_drivers_terminate (bus : Bus) (co2 : Int) (temp rh : CFloat) :
    (∃ (code : Int) (st : CO2State),
      CO2 bus co2 = some (code, st) ∧ (code = 0 ∨ code = 1 ∨ code = 2) ∧
      st.write_error_cnt ≤ MAX_ERROR_CNT ∧ st.read_error_cnt ≤ MAX_ERROR_CNT ∧
      st.checksum_error_cnt ≤ 2 * MAX_ERROR_CNT ∧
      requestWrites st.trace = st.read_error_cnt + st.checksum_error_cnt + st.success ∧
      requestWrites st.trace ≤ 3 * MAX_ERROR_CNT) ∧
    (∃ (code : Int) (st : SiState),
      si7021 bus temp rh = some (code, st) ∧ (code = 0 ∨ code = 1 ∨ code = 2) ∧
      st.write_error_cnt ≤ MAX_ERROR_CNT ∧ st.read_error_cnt ≤ MAX_ERROR_CNT ∧
      st.checksum_error_cnt ≤ MAX_ERROR_CNT ∧
      st.trace.length ≤ 6 * MAX_ERROR_CNT + 3) := by
  refine ⟨?_, si7021_returns bus temp rh⟩
  obtain ⟨code, st, hrun, h1, h2, h3, h4, h5, h⟩ := CO2_returns bus co2
  simp only [MAX_ERROR_CNT] at h1 h2 h4 h ⊢
  refine ⟨code, st, hrun, ?_, h1, h2, by omega, h5, ?_⟩
  · rcases h with ⟨e, -⟩ | ⟨e, -⟩ | ⟨e, -⟩
    · exact Or.inl e
    · exact Or.inr (Or.inl e)
    · exact Or.inr (Or.inr e)
  · rcases h with ⟨-, f1, f2, f3, f4⟩ | ⟨-, -, f1, f2, f3, f4⟩ | ⟨-, -, f1, f2⟩ <;> omega

/-! ## Theorems: retry exhaustion of both drivers -/

/-- When every write from the current call on fails, the write loop of `CO2`
writes the request until `write_error_cnt` reaches `MAX_ERROR_CNT` and gives
up: exactly `MAX_ERROR_CNT - write_error_cnt` request writes. -/
theorem CO2_write_loop_all_fail (bus : Bus) (fuel : Nat) : ∀ (st : CO2State),
    st.write_error_cnt < MAX_ERROR_CNT →
    st.checksum_error_cnt ≤ st.write_error_cnt + 100 →
    MAX_ERROR_CNT - st.write_error_cnt ≤ fuel →
    (∀ n, st.trace.length ≤ n → (bus n).status ≠ 4) →
    ∃ (status_write : Int) (st' : CO2State),
      CO2_write_loop bus fuel st = some (status_write, st') ∧ status_write ≠ 4 ∧
      st'.co2 = st.co2 ∧
      st'.trace = st.trace ++
        List.replicate (MAX_ERROR_CNT - st.write_error_cnt) (BusOp.write CO2_request) := by
  induction fuel with
  | zero =>
    intro st hw _ hf _
    simp only [MAX_ERROR_CNT] at hw hf
    omega
  | succ fuel ih =>
    intro st hw hc hf hbus
    simp only [MAX_ERROR_CNT] at hw hf ⊢
    have h4 := hbus st.trace.length (le_refl _)
    have hw1 : (st.write_error_cnt + 1) % 256 = st.write_error_cnt + 1 := by omega
    have hc1 : (st.checksum_error_cnt + 1) % 256 = st.checksum_error_cnt + 1 := by omega
    rw [CO2_write_loop_fail bus fuel st h4, hw1, hc1]
    by_cases hlt : st.write_error_cnt + 1 < MAX_ERROR_CNT
    · rw [if_pos hlt]
      simp only [MAX_ERROR_CNT] at hlt
      obtain ⟨sw, st', hrun, g1, g2, g3⟩ := ih
        { st with
          trace := st.trace ++ [BusOp.write CO2_request]
          write_error_cnt := st.write_error_cnt + 1
          checksum_error_cnt := st.checksum_error_cnt + 1 }
        (by simp only [MAX_ERROR_CNT]; omega) (by simp only []; omega)
        (by simp only [MAX_ERROR_CNT]; omega)
        (by
          intro n hn
          simp only [List.length_append, List.length_singleton] at hn
          exact hbus n (by omega))
      refine ⟨sw, st', hrun, g1, g2, ?_⟩
      simp only [MAX_ERROR_CNT] at g3
      rw [g3, List.append_assoc, List.singleton_append, ← List.replicate_succ]
      congr 2
      omega
    · rw [if_neg hlt]
      simp only [MAX_ERROR_CNT] at hlt
      refine ⟨_, _, rfl, h4, rfl, ?_⟩
      have h1 : 50 - st.write_error_cnt = 1 := by omega
      rw [h1]
      rfl

/-- When every write from the current call on fails, a write loop of
`si7021` writes its command until `write_error_cnt` reaches `MAX_ERROR_CNT`
and gives up: exactly `MAX_ERROR_CNT - write_error_cnt` command writes. -/
theorem si7021_write_loop_all_fail (bus : Bus) (command fuel : Nat) : ∀ (st : SiState),
    st.write_error_cnt < MAX_ERROR_CNT → MAX_ERROR_CNT - st.write_error_cnt ≤ fuel →
    (∀ n, st.trace.length ≤ n → (bus n).status ≠ 1) →
    ∃ (status_write : Int) (st' : SiState),
      si7021_write_loop bus command fuel st = some (status_write, st') ∧ status_write ≠ 1 ∧
      st'.temp = st.temp ∧ st'.rh = st.rh ∧
      st'.trace = st.trace ++
        List.replicate (MAX_ERROR_CNT - st.write_error_cnt) (BusOp.write [command]) := by
  induction fuel with
  | zero =>
    intro st hw hf _
    simp only [MAX_ERROR_CNT] at hw hf
    omega
  | succ fuel ih =>
    intro st hw hf hbus
    simp only [MAX_ERROR_CNT] at hw hf ⊢
    have h1 := hbus st.trace.length (le_refl _)
    have hw1 : (st.write_error_cnt + 1) % 256 = st.write_error_cnt + 1 := by omega
    rw [si7021_write_loop_fail bus command fuel st h1, hw1]
    by_cases hlt : st.write_error_cnt + 1 < MAX_ERROR_CNT
    · rw [if_pos hlt]
      simp only [MAX_ERROR_CNT] at hlt
      obtain ⟨sw, st', hrun, g1, g2, g3, g4⟩ := ih
        { st with
          trace := st.trace ++ [BusOp.write [command]]
          write_error_cnt := st.write_error_cnt + 1 }
        (by simp only [MAX_ERROR_CNT]; omega) (by simp only [MAX_ERROR_CNT]; omega)
        (by
          intro n hn
          simp only [List.length_append, List.length_singleton] at hn
          exact hbus n (by omega))
      refine ⟨sw, st', hrun, g1, g2, g3, ?_⟩
      simp only [MAX_ERROR_CNT] at g4
      rw [g4, List.append_assoc, List.singleton_append, ← List.replicate_succ]
      congr 2
      omega
    · rw [if_neg hlt]
      simp only [MAX_ERROR_CNT] at hlt
      refine ⟨_, _, rfl, h1, rfl, rfl, ?_⟩
      have h2 : 50 - st.write_error_cnt = 1 := by omega
      rw [h2]
      rfl

/-- C12: on a bus where address selection succeeds and every transfer fails
(no request or command write is ever complete), each driver returns 2 after
exactly `MAX_ERROR_CNT` writes of its request: `CO2` makes its two address
selections and the wake-up pulse and then exactly 50 writes of the 4-byte
request, `si7021` selects its address and then makes exactly 50 writes of the
command 0xE5; neither makes any other call, and the outputs are untouched. -/
theorem C12_exhaustion_exact (busC busS : Bus) (co2 : Int) (temp rh : CFloat)
    (hC0 : 0 ≤ (busC 0).status) (hC2 : 0 ≤ (busC 2).status)
    (hC : ∀ n, 3 ≤ n → (busC n).status ≠ 4)
    (hS0 : 0 ≤ (busS 0).status) (hS : ∀ n, 1 ≤ n → (busS n).status ≠ 1) :
    (∃ st, CO2 busC co2 = some (2, st) ∧ st.co2 = co2 ∧
      st.trace = [BusOp.ioctl 0x00, BusOp.write [0x22], BusOp.ioctl 0x68] ++
        List.replicate MAX_ERROR_CNT (BusOp.write CO2_request) ∧
      requestWrites st.trace = MAX_ERROR_CNT) ∧
    (∃ st, si7021 busS temp rh = some (2, st) ∧ st.temp = temp ∧ st.rh = rh ∧
      st.trace = [BusOp.ioctl 0x40] ++ List.replicate MAX_ERROR_CNT (BusOp.write [0xE5]) ∧
      st.trace.count (BusOp.write [0xE5]) = MAX_ERROR_CNT) := by
  constructor
  · obtain ⟨sw, st', hrun, g1, g2, g3⟩ := CO2_write_loop_all_fail busC loopFuel
      { CO2_init co2 with
        trace := (CO2_init co2).trace ++ [BusOp.ioctl 0x00] ++ [BusOp.write [0x22]] ++
          [BusOp.ioctl 0x68] }
      (by simp [CO2_init, MAX_ERROR_CNT]) (by simp [CO2_init])
      (by simp [CO2_init, MAX_ERROR_CNT, loopFuel])
      (by
        intro n hn
        simp only [CO2_init, List.nil_append, List.length_append, List.length_singleton] at hn
        exact hC n (by omega))
    refine ⟨st', ?_, g2, ?_, ?_⟩
    · rw [CO2, loopFuel_eq, CO2_loop]
      unfold CO2_body
      simp only
      rw [if_neg (by simpa [CO2_init] using hC0), if_neg (by simpa [CO2_init] using hC2)]
      rw [loopFuel_eq, CO2_read_loop, hrun]
      simp only
      rw [if_pos g1]
    · rw [g3]
      simp [CO2_init]
    · rw [g3]
      simp [CO2_init, requestWrites, List.count_append, List.count_replicate, CO2_request]
  · obtain ⟨sw, st', hrun, g1, g2, g3, g4⟩ := si7021_write_loop_all_fail busS 0xE5 loopFuel
      { si7021_init temp rh with
        trace := (si7021_init temp rh).trace ++ [BusOp.ioctl 0x40] }
      (by simp [si7021_init, MAX_ERROR_CNT]) (by simp [si7021_init, MAX_ERROR_CNT, loopFuel])
      (by
        intro n hn
        simp only [si7021_init, List.nil_append, List.length_singleton] at hn
        exact hS n hn)
    refine ⟨st', ?_, g2, g3, ?_, ?_⟩
    · unfold si7021
      simp only
      rw [if_neg (by simpa [si7021_init] using hS0), loopFuel_eq, si7021_rh_loop]
      unfold si7021_rh_body
      rw [hrun]
      simp only
      rw [if_pos g1]
    · rw [g4]
      simp [si7021_init]
    · rw [g4]
      simp [si7021_init, List.count_append, List.count_replicate]

/-- After its listed replies a scripted bus answers every call with -1. -/
theorem scriptBus_after (replies : List Reply) (n : Nat) (h : replies.length ≤ n) :
    scriptBus replies n = ⟨-1, []⟩ := by
  unfold scriptBus
  exact List.getD_eq_default _ _ h

/-- C12 at the bus on which the two address selections of `CO2` (and the one
of `si7021`) return 0 and every other call returns -1: both drivers return 2
after exactly 50 writes of their request. -/
theorem C12_exhaustion_exact_witness :
    (∃ st, CO2 (scriptBus [⟨0, []⟩, ⟨-1, []⟩, ⟨0, []⟩]) 7 = some (2, st) ∧ st.co2 = 7 ∧
      requestWrites st.trace = 50) ∧
    (∃ st, si7021 (scriptBus [⟨0, []⟩]) (CFloat.val 20) (CFloat.val 50) = some (2, st) ∧
      st.trace.count (BusOp.write [0xE5]) = 50) := by
  have h := C12_exhaustion_exact (scriptBus [⟨0, []⟩, ⟨-1, []⟩, ⟨0, []⟩])
    (scriptBus [⟨0, []⟩]) 7 (CFloat.val 20) (CFloat.val 50) (by decide) (by decide)
    (by
      intro n hn
      rw [scriptBus_after _ n (by simpa using hn)]
      decide)
    (by decide)
    (by
      intro n hn
      rw [scriptBus_after _ n (by simpa using hn)]
      decide)
  obtain ⟨⟨st1, a1, a2, -, a4⟩, ⟨st2, b1, -, -, -, b5⟩⟩ := h
  exact ⟨⟨st1, a1, a2, a4⟩, ⟨st2, b1, b5⟩⟩

/-! ## Theorems: the humidity response si7021 accepts -/

/-- Accepted responses of a trace extended by one system call: those of the
trace, and the new call if it is a complete, CRC-valid 3 byte read. -/
theorem rhAccepted_append_singleton (bus : Bus) (tr : List BusOp) (op : BusOp) (n : Nat) :
    rhAccepted bus (tr ++ [op]) n ↔
      rhAccepted bus tr n ∨
        (n = tr.length ∧ op = BusOp.read 3 ∧ (bus n).status = 3 ∧
          crc8 ((fillBuffer 3 (bus n).data).take 2) = byteAt (fillBuffer 3 (bus n).data) 2) := by
  unfold rhAccepted
  rcases Nat.lt_trichotomy n tr.length with h | h | h
  · rw [List.getElem?_append_left h]
    constructor
    · intro hh; exact Or.inl hh
    · rintro (hh | ⟨e, -⟩)
      · exact hh
      · omega
  · subst h
    rw [List.getElem?_append_right (le_refl _), Nat.sub_self, List.getElem?_cons_zero,
      List.getElem?_eq_none (le_refl _)]
    constructor
    · rintro ⟨e, h1, h2⟩
      exact Or.inr ⟨rfl, Option.some.inj e, h1, h2⟩
    · rintro (⟨e, -⟩ | ⟨-, e, h1, h2⟩)
      · exact absurd e (by simp)
      · exact ⟨by rw [e], h1, h2⟩
  · rw [List.getElem?_eq_none (by simp; omega), List.getElem?_eq_none (by omega)]
    constructor
    · rintro ⟨e, -⟩; exact absurd e (by simp)
    · rintro (⟨e, -⟩ | ⟨e, -⟩)
      · exact absurd e (by simp)
      · omega

/-- A write loop of `si7021` adds no accepted response and leaves the buffer
alone. -/
theorem si7021_write_loop_accepted (bus : Bus) (command fuel : Nat) :
    ∀ (st st' : SiState) (c : Int), si7021_write_loop bus command fuel st = some (c, st') →
      st'.buffer_read = st.buffer_read ∧
      ∀ n, rhAccepted bus st'.trace n ↔ rhAccepted bus st.trace n := by
  induction fuel with
  | zero => intro st st' c h; simp [si7021_write_loop] at h
  | succ fuel ih =>
    intro st st' c h
    have hstep : ∀ n, rhAccepted bus (st.trace ++ [BusOp.write [command]]) n ↔
        rhAccepted bus st.trace n := by
      intro n
      rw [rhAccepted_append_singleton]
      constructor
      · rintro (hh | ⟨-, e, -⟩)
        · exact hh
        · exact absurd e (by simp)
      · intro hh; exact Or.inl hh
    rw [si7021_write_loop] at h
    simp only at h
    split_ifs at h with h1 h2
    · have h3 := ih _ _ _ h
      exact ⟨h3.1, fun n => (h3.2 n).trans (hstep n)⟩
    · simp only [Option.some.injEq, Prod.mk.injEq] at h
      obtain ⟨-, rfl⟩ := h
      exact ⟨rfl, hstep⟩
    · simp only [Option.some.injEq, Prod.mk.injEq] at h
      obtain ⟨-, rfl⟩ := h
      exact ⟨rfl, hstep⟩

/-- A read loop of `si7021`: failed reads add no accepted response; if the
loop ends with a complete read, that read is the last call of the trace, its
bytes are in the buffer, and no other call was added to the accepted ones. -/
theorem si7021_read_loop_accepted (bus : Bus) (m fuel : Nat) :
    ∀ (st st' : SiState) (sr : Int), si7021_read_loop bus m fuel st = some (sr, st') →
      (sr ≠ m ∧ st'.buffer_read = st.buffer_read ∧
        ∀ n, rhAccepted bus st'.trace n ↔ rhAccepted bus st.trace n) ∨
      (sr = m ∧ ∃ n0, st.trace.length ≤ n0 ∧ st'.trace.length = n0 + 1 ∧
        (st'.trace)[n0]? = some (BusOp.read m) ∧ (bus n0).status = m ∧
        st'.buffer_read = fillBuffer m (bus n0).data ++ st.buffer_read.drop m ∧
        ∀ n, n ≠ n0 → (rhAccepted bus st'.trace n ↔ rhAccepted bus st.trace n)) := by
  induction fuel with
  | zero => intro st st' sr h; simp [si7021_read_loop] at h
  | succ fuel ih =>
    intro st st' sr h
    by_cases hs : (bus st.trace.length).status = m
    · rw [si7021_read_loop_ok bus m fuel st hs] at h
      simp only [Option.some.injEq, Prod.mk.injEq] at h
      obtain ⟨rfl, rfl⟩ := h
      refine Or.inr ⟨rfl, st.trace.length, le_refl _, by simp, ?_, hs, rfl, ?_⟩
      · simp
      · intro n hn
        rw [rhAccepted_append_singleton]
        constructor
        · rintro (hh | ⟨e, -⟩)
          · exact hh
          · exact absurd e hn
        · intro hh; exact Or.inl hh
    · have hstep : ∀ n, rhAccepted bus (st.trace ++ [BusOp.read m]) n ↔
          rhAccepted bus st.trace n := by
        intro n
        rw [rhAccepted_append_singleton]
        constructor
        · rintro (hh | ⟨e, e2, e3, -⟩)
          · exact hh
          · exfalso
            simp only [BusOp.read.injEq] at e2
            subst e e2
            exact hs e3
        · intro hh; exact Or.inl hh
      rw [si7021_read_loop_fail bus m fuel st hs] at h
      split_ifs at h with h2
      · rcases ih _ _ _ h with ⟨e1, e2, e3⟩ | ⟨e1, n0, g1, g2, g3, g4, g5, g6⟩
        · exact Or.inl ⟨e1, e2, fun n => (e3 n).trans (hstep n)⟩
        · simp only [List.length_append, List.length_singleton] at g1
          exact Or.inr ⟨e1, n0, by omega, g2, g3, g4, g5,
            fun n hn => (g6 n hn).trans (hstep n)⟩
      · simp only [Option.some.injEq, Prod.mk.injEq] at h
        obtain ⟨rfl, rfl⟩ := h
        exact Or.inl ⟨hs, rfl, hstep⟩

/-- The three bytes a 3 byte read leaves at the start of the buffer decide
the CRC test and the raw code, whatever follows them in the buffer. -/
theorem fillBuffer_three_append (data rest : List Nat) :
    (fillBuffer 3 data ++ rest).take 2 = (fillBuffer 3 data).take 2 ∧
    byteAt (fillBuffer 3 data ++ rest) 2 = byteAt (fillBuffer 3 data) 2 ∧
    rawCode (fillBuffer 3 data ++ rest) = rawCode (fillBuffer 3 data) := by
  have hr : List.range 3 = [0, 1, 2] := by decide
  simp [fillBuffer, hr, byteAt, rawCode]

/-- One pass through the humidity loop body of `si7021`, entered with nothing
accepted so far: either no response is accepted (by `return 2` or a rejected
frame) and the outputs are untouched, or the response of the last read is
accepted and `*rh` holds the conversion of its bytes. -/
theorem si7021_rh_body_accepted (bus : Bus) (st : SiState) (res : Ctl SiState)
    (h : si7021_rh_body bus st = some res) (hs : st.success = 0)
    (hno : ∀ n, ¬ rhAccepted bus st.trace n) :
    (∃ st', (res = Ctl.returned 2 st' ∨ res = Ctl.done st') ∧ st'.success = 0 ∧
      st'.rh = st.rh ∧ st'.temp = st.temp ∧ ∀ n, ¬ rhAccepted bus st'.trace n) ∨
    (∃ st', res = Ctl.done st' ∧ st'.success = 1 ∧ st'.temp = st.temp ∧
      (∃ n0, rhAccepted bus st'.trace n0) ∧
      ∀ n, rhAccepted bus st'.trace n →
        st'.rh = CFloat.val (rh_stored (rawCode (fillBuffer 3 (bus n).data)))) := by
  unfold si7021_rh_body at h
  cases hw : si7021_write_loop bus 0xE5 loopFuel st with
  | none => rw [hw] at h; simp at h
  | some p =>
    obtain ⟨sw, st1⟩ := p
    obtain ⟨ht1, hr1, hs1⟩ := si7021_write_loop_frame bus _ _ _ _ _ hw
    obtain ⟨-, ha1⟩ := si7021_write_loop_accepted bus _ _ _ _ _ hw
    have hno1 : ∀ n, ¬ rhAccepted bus st1.trace n := fun n hn => hno n ((ha1 n).mp hn)
    rw [hw] at h
    simp only at h
    split_ifs at h with h1
    · simp only [Option.some.injEq] at h
      exact Or.inl ⟨st1, Or.inl h.symm, hs1.trans hs, hr1, ht1, hno1⟩
    · cases hrd : si7021_read_loop bus 3 loopFuel st1 with
      | none => rw [hrd] at h; simp at h
      | some q =>
        obtain ⟨sr, st2⟩ := q
        obtain ⟨ht2, hr2, hs2⟩ := si7021_read_loop_frame bus _ _ _ _ _ hrd
        rw [hrd] at h
        simp only at h
        rcases si7021_read_loop_accepted bus 3 _ _ _ _ hrd with
          ⟨e1, -, e3⟩ | ⟨e1, n0, g1, g2, g3, g4, g5, g6⟩
        · rw [if_pos (by simpa using e1)] at h
          simp only [Option.some.injEq] at h
          exact Or.inl ⟨st2, Or.inl h.symm, (hs2.trans hs1).trans hs, hr2.trans hr1,
            ht2.trans ht1, fun n hn => hno1 n ((e3 n).mp hn)⟩
        · rw [if_neg (by simpa using e1)] at h
          obtain ⟨f1, f2, f3⟩ := fillBuffer_three_append (bus n0).data
            (st1.buffer_read.drop 3)
          rw [g5, f1, f2, f3] at h
          have honly : ∀ n, rhAccepted bus st2.trace n → n = n0 := by
            intro n hn
            by_contra hne
            exact hno1 n ((g6 n hne).mp hn)
          split_ifs at h with hcrc
          · simp only [Option.some.injEq] at h
            refine Or.inr ⟨_, h.symm, rfl, ht2.trans ht1, ⟨n0, g3, g4, hcrc⟩, ?_⟩
            intro n hn
            rw [honly n hn]
          · simp only [Option.some.injEq] at h
            refine Or.inl ⟨_, Or.inr h.symm, (hs2.trans hs1).trans hs, hr2.trans hr1,
              ht2.trans ht1, ?_⟩
            intro n hn
            have hn' : rhAccepted bus st2.trace n := hn
            have e := honly n hn'
            subst e
            exact hcrc hn'.2.2

/-- The humidity loop of `si7021`, entered with nothing accepted so far:
either it ends with no response accepted and the outputs untouched, or with
`success` set, at least one accepted response in the trace, and `*rh` holding
the conversion of the bytes of every accepted response. -/
theorem si7021_rh_loop_accepted (bus : Bus) (fuel : Nat) :
    ∀ (st : SiState) (res : Ctl SiState), st.success = 0 →
      (∀ n, ¬ rhAccepted bus st.trace n) →
      si7021_rh_loop bus fuel st = some res →
      (∃ st', (res = Ctl.returned 2 st' ∨ res = Ctl.done st') ∧ st'.success = 0 ∧
        st'.rh = st.rh ∧ st'.temp = st.temp ∧ ∀ n, ¬ rhAccepted bus st'.trace n) ∨
      (∃ st', res = Ctl.done st' ∧ st'.success = 1 ∧ st'.temp = st.temp ∧
        (∃ n0, rhAccepted bus st'.trace n0) ∧
        ∀ n, rhAccepted bus st'.trace n →
          st'.rh = CFloat.val (rh_stored (rawCode (fillBuffer 3 (bus n).data)))) := by
  induction fuel with
  | zero => intro st res _ _ h; simp [si7021_rh_loop] at h
  | succ fuel ih =>
    intro st res hs hno h
    rw [si7021_rh_loop] at h
    cases hb : si7021_rh_body bus st with
    | none => rw [hb] at h; simp at h
    | some b =>
      rw [hb] at h
      rcases si7021_rh_body_accepted bus st b hb hs hno with
        ⟨st1, hres, hs1, hr1, ht1, hno1⟩ | ⟨st1, hres, hs1, ht1, hex, hq⟩
      · rcases hres with rfl | rfl
        · simp only [Option.some.injEq] at h
          exact Or.inl ⟨st1, Or.inl h.symm, hs1, hr1, ht1, hno1⟩
        · simp only at h
          split_ifs at h with hc
          · rcases ih st1 res hs1 hno1 h with
              ⟨st2, k1, k2, k3, k4, k5⟩ | ⟨st2, k1, k2, k3, k4, k5⟩
            · exact Or.inl ⟨st2, k1, k2, k3.trans hr1, k4.trans ht1, k5⟩
            · exact Or.inr ⟨st2, k1, k2, k3.trans ht1, k4, k5⟩
          · simp only [Option.some.injEq] at h
            exact Or.inl ⟨st1, Or.inr h.symm, hs1, hr1, ht1, hno1⟩
      · subst hres
        simp only at h
        rw [if_neg (by rw [hs1]; simp)] at h
        simp only [Option.some.injEq] at h
        exact Or.inr ⟨st1, h.symm, hs1, ht1, hex, hq⟩

/-- The temperature part of `si7021`, when it fails, stores nothing and adds
no accepted humidity response to the trace. -/
theorem si7021_temp_accepted (bus : Bus) (st st' : SiState) (code : Int)
    (h : si7021_temp bus st = some (code, st')) (hc : code ≠ 0) :
    ∀ n, rhAccepted bus st'.trace n ↔ rhAccepted bus st.trace n := by
  unfold si7021_temp at h
  simp only at h
  cases hw : si7021_write_loop bus 0xE0 loopFuel
      { st with
        buffer_read := [0, 0, 0]
        write_error_cnt := 0
        read_error_cnt := 0
        checksum_error_cnt := 0 } with
  | none => rw [hw] at h; simp at h
  | some p =>
    obtain ⟨sw, st1⟩ := p
    obtain ⟨-, ha1⟩ := si7021_write_loop_accepted bus _ _ _ _ _ hw
    rw [hw] at h
    simp only at h
    split_ifs at h with h1
    · simp only [Option.some.injEq, Prod.mk.injEq] at h
      obtain ⟨-, rfl⟩ := h
      exact ha1
    · cases hrd : si7021_read_loop bus 2 loopFuel st1 with
      | none => rw [hrd] at h; simp at h
      | some q =>
        obtain ⟨sr, st2⟩ := q
        rw [hrd] at h
        simp only at h
        split_ifs at h with h2
        · simp only [Option.some.injEq, Prod.mk.injEq] at h
          obtain ⟨-, rfl⟩ := h
          rcases si7021_read_loop_accepted bus 2 _ _ _ _ hrd with ⟨-, -, e3⟩ | ⟨e1, -⟩
          · exact fun n => (e3 n).trans (ha1 n)
          · exact absurd e1 (by simpa using h2)
        · simp only [Option.some.injEq, Prod.mk.injEq] at h
          exact absurd h.1.symm hc

/-! ## Theorems: what a failing call of si7021 leaves in its outputs -/

/-- C10, amended: whenever `si7021` returns a failure, `*temp` is left exactly
as it was before the call.  `*rh` is left as it was if no humidity response of
the call was accepted (no complete 3 byte read with a matching CRC byte; this
is the case exactly when `success` is still 0).  If a response was accepted,
the failure is the `return 2` of the temperature exchange, and `*rh` holds the
value converted from the bytes of that accepted response. -/
theorem C10_si7021_failure_frame (bus : Bus) (temp rh : CFloat) (code : Int) (st : SiState)
    (h : si7021 bus temp rh = some (code, st)) (hc : code ≠ 0) :
    st.temp = temp ∧
    (st.success = 0 ↔ ∀ n, ¬ rhAccepted bus st.trace n) ∧
    ((∀ n, ¬ rhAccepted bus st.trace n) → st.rh = rh) ∧
    (∀ n, rhAccepted bus st.trace n →
      code = 2 ∧ st.rh = CFloat.val (rh_stored (rawCode (fillBuffer 3 (bus n).data)))) := by
  unfold si7021 at h
  simp only at h
  have hinit : ∀ n, ¬ rhAccepted bus ((si7021_init temp rh).trace ++ [BusOp.ioctl 0x40]) n := by
    intro n hn
    rw [rhAccepted_append_singleton] at hn
    rcases hn with ⟨e, -⟩ | ⟨-, e, -⟩
    · simp [si7021_init] at e
    · exact absurd e (by simp)
  split_ifs at h with h0
  · simp only [Option.some.injEq, Prod.mk.injEq] at h
    obtain ⟨-, rfl⟩ := h
    exact ⟨rfl, ⟨fun _ => hinit, fun _ => rfl⟩, fun _ => rfl, fun n hn => absurd hn (hinit n)⟩
  · cases hl : si7021_rh_loop bus loopFuel
        { si7021_init temp rh with
          trace := (si7021_init temp rh).trace ++ [BusOp.ioctl 0x40] } with
    | none => rw [hl] at h; simp at h
    | some r =>
      rw [hl] at h
      rcases si7021_rh_loop_accepted bus _ _ r rfl hinit hl with
        ⟨st1, hres, hs1, hr1, ht1, hno1⟩ | ⟨st1, hres, hs1, ht1, hex, hq⟩
      · have hfin : st = st1 := by
          rcases hres with rfl | rfl
          · simp only [Option.some.injEq, Prod.mk.injEq] at h
            exact h.2.symm
          · simp only at h
            rw [if_pos hs1] at h
            simp only [Option.some.injEq, Prod.mk.injEq] at h
            exact h.2.symm
        subst hfin
        exact ⟨ht1, ⟨fun _ => hno1, fun _ => hs1⟩, fun _ => hr1,
          fun n hn => absurd hn (hno1 n)⟩
      · subst hres
        simp only at h
        rw [if_neg (by rw [hs1]; simp)] at h
        obtain ⟨ht2, hr2, hs2⟩ := si7021_temp_frame bus st1 st code h hc
        have hacc := si7021_temp_accepted bus st1 st code h hc
        obtain ⟨n0, hn0⟩ := hex
        have hcode : code = 2 := by
          obtain ⟨code', st', hrun, hcases, -⟩ := si7021_temp_spec bus st1
          rw [hrun] at h
          simp only [Option.some.injEq, Prod.mk.injEq] at h
          rcases hcases with e | e
          · exact absurd (h.1 ▸ e) hc
          · exact h.1 ▸ e
        refine ⟨ht2.trans ht1, ⟨?_, ?_⟩, ?_, ?_⟩
        · intro h0'
          rw [hs2, hs1] at h0'
          exact absurd h0' (by decide)
        · intro hno
          exact absurd ((hacc n0).mpr hn0) (hno n0)
        · intro hno
          exact absurd ((hacc n0).mpr hn0) (hno n0)
        · intro n hn
          exact ⟨hcode, hr2.trans (hq n ((hacc n).mp hn))⟩

/-- C10 amended, at two runs.  In the first the humidity response
{0x68, 0x3A, 0x7C} (call 2) is accepted and every later call fails: `si7021`
returns 2, `*temp` is as before and `*rh` holds the conversion of that
response, 44.  In the second every call after the address selection fails:
`si7021` returns 2, no response is accepted and both outputs are as
before. -/
theorem C10_si7021_failure_frame_witness :
    (∃ st, si7021 (scriptBus [⟨0, []⟩, ⟨1, []⟩, ⟨3, [0x68, 0x3A, 0x7C]⟩])
        (CFloat.val 20) (CFloat.val 50) = some (2, st) ∧
      rhAccepted (scriptBus [⟨0, []⟩, ⟨1, []⟩, ⟨3, [0x68, 0x3A, 0x7C]⟩]) st.trace 2 ∧
      st.temp = CFloat.val 20 ∧
      st.rh = CFloat.val (rh_stored (rawCode [0x68, 0x3A, 0x7C])) ∧
      rh_stored (rawCode [0x68, 0x3A, 0x7C]) = 44) ∧
    (∃ st, si7021 (scriptBus [⟨0, []⟩]) (CFloat.val 20) (CFloat.val 50) = some (2, st) ∧
      (∀ n, ¬ rhAccepted (scriptBus [⟨0, []⟩]) st.trace n) ∧
      st.temp = CFloat.val 20 ∧ st.rh = CFloat.val 50) := by
  constructor
  · refine ⟨_, rfl, ?_, ?_, ?_, ?_⟩
    · exact ⟨rfl, by decide, by decide⟩
    · exact (C10_si7021_failure_frame (scriptBus [⟨0, []⟩, ⟨1, []⟩, ⟨3, [0x68, 0x3A, 0x7C]⟩])
        (CFloat.val 20) (CFloat.val 50) 2 _ rfl (by decide)).1
    · exact ((C10_si7021_failure_frame (scriptBus [⟨0, []⟩, ⟨1, []⟩, ⟨3, [0x68, 0x3A, 0x7C]⟩])
        (CFloat.val 20) (CFloat.val 50) 2 _ rfl (by decide)).2.2.2 2
        ⟨rfl, by decide, by decide⟩).2
    · simp [rh_stored, rh_local, rawCode, byteAt]
  · have hthm := C10_si7021_failure_frame (scriptBus [⟨0, []⟩]) (CFloat.val 20)
      (CFloat.val 50) 2 _ rfl (by decide)
    have hno := hthm.2.1.mp rfl
    exact ⟨_, rfl, hno, hthm.1, hthm.2.2.1 hno⟩

end IAQ
